import Mathlib

/-!
# CI_Project: chat back end of the KKU engineering faculty assistant

A shallow embedding of the two server variants of the repository

* variant 1: `src/Best/server/server copy 2.js` (`/chat`, `/api/resources`),
* variant 2: `src/server/server copy 3.js` (`/ask`, `/ask-upload`),

followed by theorems about the resource matcher, the upload filter, the file
extractor and the request handlers.

Conventions of the embedding.

* A JavaScript string is a Lean `String`; every string the handlers receive
  comes from a decoded request body, so it is a sequence of code points.
* Library calls whose result the code cannot compute itself (the PDF and DOCX
  parsers, base64 encoding, the generative model, the HTTP fetch, the Unicode
  lower-casing table, JSON string quoting) are fields of the structure `Env`.
  A call that can throw returns `Except String _`, the string being the
  `message` of the thrown error.
* The file system is an explicit association list from paths to contents and
  is threaded through every function that touches it.
* Each handler returns the HTTP response together with the final file system
  and the trace of the calls it made: the functions of the repository it
  entered and the requests it sent to the generative models.
-/

namespace CIProject

/-! ## Strings -/

/-- The method `String.prototype.includes`: `t` occurs in `s` at some position. -/
def includes (s t : String) : Bool :=
  s.data.tails.any (fun u => t.data.isPrefixOf u)

/-- The method `String.prototype.startsWith`. -/
def startsWith (s t : String) : Bool :=
  t.data.isPrefixOf s.data

/-- The method `Array.prototype.join` on an array of strings. -/
def join (sep : String) : List String → String
  | [] => ""
  | [x] => x
  | x :: y :: rest => x ++ sep ++ join sep (y :: rest)

/-- Case-mapping table of `String.prototype.toLowerCase`: the code points that
replace the code point `c` standing between `before` and `after`.  The context
is needed because the Unicode default lower-casing is context sensitive (final
sigma) and a code point may lower-case to several code points. -/
abbrev LowerTable := List Char → Char → List Char → List Char

/-- Lower-casing of the code points `cs` that follow `before`. -/
def lowerFrom (lowerAt : LowerTable) : List Char → List Char → List Char
  | _, [] => []
  | before, c :: rest => lowerAt before c rest ++ lowerFrom lowerAt (before ++ [c]) rest

/-- The method `String.prototype.toLowerCase` over a given case-mapping table. -/
def toLowerCase (lowerAt : LowerTable) (s : String) : String :=
  ⟨lowerFrom lowerAt [] s.data⟩

/-- Code points of the Thai block U+0E00..U+0E7F. -/
def isThai (c : Char) : Bool :=
  decide (0x0E00 ≤ c.toNat) && decide (c.toNat ≤ 0x0E7F)

/-- The property of the Unicode table the matcher relies on: Thai has no case,
so a Thai code point lower-cases to itself in every context. -/
def ThaiCaseless (lowerAt : LowerTable) : Prop :=
  ∀ before c after, isThai c = true → lowerAt before c after = [c]

/-- A case-mapping table that lower-cases the ASCII letters and nothing else. -/
def asciiLower : LowerTable := fun _ c _ => [c.toLower]

/-! ## JavaScript values reaching the matcher -/

/-- The values a request field can hold.  `object` stands for any array or
object, which is truthy and has no `toLowerCase` method. -/
inductive JsValue where
  | undefined
  | null
  | boolean (b : Bool)
  | number (n : Int)
  | string (s : String)
  | object
  deriving DecidableEq, Repr

/-- Truthiness of a value, as tested by `!query`. -/
def JsValue.truthy : JsValue → Bool
  | .undefined => false
  | .null => false
  | .boolean b => b
  | .number n => decide (n ≠ 0)
  | .string s => decide (s ≠ "")
  | .object => true

/-! ## The resource table (variant 1) -/

/-- One entry of `kkuResources`. -/
structure Resource where
  title : String
  url : String
  deriving DecidableEq, Repr

/-- The table `kkuResources`, one list per category. -/
structure ResourceTable where
  admission : List Resource
  tuition : List Resource
  curriculum : List Resource
  deriving DecidableEq, Repr

/-- The constant `kkuResources`. -/
def kkuResources : ResourceTable where
  admission :=
    [ { title := "ระบบรับสมัครนักศึกษา", url := "https://www.admissions.kku.ac.th" },
      { title := "เว็บไซต์คณะวิศวกรรมศาสตร์", url := "https://www.en.kku.ac.th" } ]
  tuition :=
    [ { title := "ค่าธรรมเนียมการศึกษาปริญญาตรี",
        url := "https://www.en.kku.ac.th/web/tuition-fees" } ]
  curriculum :=
    [ { title := "หลักสูตรวิศวกรรมศาสตร์", url := "https://www.en.kku.ac.th/web/curriculum" } ]

/-! ## The JavaScript `Map` used for deduplication -/

/-- The method `Map.prototype.set` on a map kept in insertion order: an existing
key keeps its position and takes the new value, a new key goes to the end.  An
assignment `object[key] = value` with a key that is not an array index behaves
the same way, so the function also models plain objects. -/
def mapSet {β : Type} (k : String) (v : β) : List (String × β) → List (String × β)
  | [] => [(k, v)]
  | (k', v') :: rest => if k' = k then (k, v) :: rest else (k', v') :: mapSet k v rest

/-- The constructor `new Map(entries)`: the entries are set one after another. -/
def mapOfEntries (entries : List (String × Resource)) : List (String × Resource) :=
  entries.foldl (fun m e => mapSet e.1 e.2 m) []

/-- The method `Map.prototype.values`, spread into an array. -/
def mapValues (m : List (String × Resource)) : List Resource :=
  m.map Prod.snd

/-- The last line of `findRelevantResources`: deduplication by URL. -/
def dedupByUrl (resources : List Resource) : List Resource :=
  mapValues (mapOfEntries (resources.map (fun item => (item.url, item))))

/-! ## The resource matcher -/

/-- The body of `findRelevantResources` once `query` is known to be a string. -/
def matchResources (lowerAt : LowerTable) (table : ResourceTable) (query : String) :
    List Resource :=
  let lowerQuery := toLowerCase lowerAt query
  let resources : List Resource := []
  let resources :=
    if includes lowerQuery "สมัคร" || includes lowerQuery "รับเข้า" then
      resources ++ table.admission else resources
  let resources :=
    if includes lowerQuery "ค่าเทอม" || includes lowerQuery "ค่าธรรมเนียม" then
      resources ++ table.tuition else resources
  let resources :=
    if includes lowerQuery "หลักสูตร" || includes lowerQuery "วิชา" then
      resources ++ table.curriculum else resources
  dedupByUrl resources

/-- The function `findRelevantResources` of variant 1.  A truthy value that is
not a string has no `toLowerCase` method, so the call throws a `TypeError`. -/
def findRelevantResources (lowerAt : LowerTable) (query : JsValue) :
    Except String (List Resource) :=
  if !query.truthy then .ok []
  else match query with
    | .string s => .ok (matchResources lowerAt kkuResources s)
    | _ => .error "query.toLowerCase is not a function"

/-! ## The world the handlers act on -/

/-- Raw file contents. -/
abbrev Bytes := List Nat

/-- The file system: stored paths with their contents. -/
abbrev FileSystem := List (String × Bytes)

/-- The content parts of a model request. -/
inductive Part where
  | text (text : String)
  | inlineData (data : String) (mimeType : String)
  deriving DecidableEq, Repr

/-- One entry of `safetySettings`. -/
structure SafetySetting where
  category : String
  threshold : String
  deriving DecidableEq, Repr

/-- The argument of `generateContent`: one content with a role and parts. -/
structure GenerateRequest where
  role : String
  parts : List Part
  safetySettings : List SafetySetting
  deriving DecidableEq, Repr

/-- The three model handles: `model` (variant 1), `visionModel` and `textModel`
(variant 2). -/
inductive ModelName where
  | model
  | visionModel
  | textModel
  deriving DecidableEq, Repr

/-- A file as multer stores it in `req.file`. -/
structure StoredFile where
  path : String
  mimetype : String
  size : Nat
  deriving DecidableEq, Repr

/-- The calls a handler makes, in the order it makes them. -/
inductive Call where
  | processUploadedFile (file : StoredFile)
  | prepareAllData
  | analyzeImage (imagePath : String)
  | readPDF (filePath : String)
  | scrapeWebsite (url : String)
  | generateContent (handle : ModelName) (request : GenerateRequest)
  deriving DecidableEq, Repr

/-- The mutable surroundings of a request: the file system and the call trace. -/
structure World where
  fs : FileSystem
  trace : List Call
  deriving DecidableEq, Repr

/-- The libraries and services the servers call. -/
structure Env where
  /-- Case-mapping table of `toLowerCase`. -/
  lowerAt : LowerTable
  /-- Result of `Buffer.prototype.toString('base64')`. -/
  base64 : Bytes → String
  /-- Result of reading a file with encoding `'utf8'`. -/
  utf8 : Bytes → String
  /-- The `text` of `pdf-parse` on a buffer. -/
  pdf : Bytes → Except String String
  /-- The `value` of `mammoth.extractRawText` on a document. -/
  extractRawText : Bytes → Except String String
  /-- The text of the response of `generateContent` on the given model. -/
  generateContent : ModelName → GenerateRequest → Except String String
  /-- The `data` of the response of `axios.get`. -/
  axiosGet : String → Except String String
  /-- The texts of the `p, h1, h2, h3, li` elements under `body`, in document order. -/
  selectTexts : String → List String
  /-- Serialisation of a string by `JSON.stringify`. -/
  jsonQuote : String → String
  /-- The value of `__dirname`. -/
  dirname : String

/-- A computation that reads and changes the world and may throw an error
message.  The world is kept when an error is thrown. -/
def M (α : Type) : Type := World → Except String α × World

/-- Return a value. -/
def M.pure {α : Type} (a : α) : M α := fun w => (.ok a, w)

/-- Run `x`, then `f` on its value; an error of `x` is passed on. -/
def M.bind {α β : Type} (x : M α) (f : α → M β) : M β := fun w =>
  match x w with
  | (.ok a, w') => f a w'
  | (.error e, w') => (.error e, w')

instance : Monad M where
  pure := M.pure
  bind := M.bind

/-- The statement `throw new Error(message)`. -/
def raise {α : Type} (message : String) : M α := fun w => (.error message, w)

/-- The statement `try { x } catch (error) { handler error.message }`. -/
def attempt {α : Type} (x : M α) (handler : String → M α) : M α := fun w =>
  match x w with
  | (.ok a, w') => (.ok a, w')
  | (.error e, w') => handler e w'

/-- Lift a library call. -/
def liftExcept {α : Type} (r : Except String α) : M α := fun w => (r, w)

/-- Record a call in the trace. -/
def logCall (c : Call) : M Unit := fun w => (.ok (), { w with trace := w.trace ++ [c] })

/-- A path is present in the file system. -/
def fileExists (fs : FileSystem) (path : String) : Bool :=
  fs.any (fun entry => entry.1 = path)

/-- The file system without the path. -/
def removeFile (fs : FileSystem) (path : String) : FileSystem :=
  fs.filter (fun entry => entry.1 ≠ path)

/-- The function `fs.existsSync`. -/
def existsSync (path : String) : M Bool := fun w =>
  (.ok (fileExists w.fs path), w)

/-- The function `fs.readFileSync`: the contents, or `ENOENT` for a missing path. -/
def readFileSync (path : String) : M Bytes := fun w =>
  match w.fs.lookup path with
  | some bytes => (.ok bytes, w)
  | none => (.error ("ENOENT: no such file or directory, open " ++ path), w)

/-- The function `fs.unlinkSync`: removes the path, or `ENOENT` for a missing path. -/
def unlinkSync (path : String) : M Unit := fun w =>
  if fileExists w.fs path then
    (.ok (), { w with fs := removeFile w.fs path })
  else
    (.error ("ENOENT: no such file or directory, unlink " ++ path), w)

/-- A call of `generateContent` followed by `response.text()`, recorded in the trace. -/
def generate (env : Env) (handle : ModelName) (request : GenerateRequest) : M String := do
  logCall (.generateContent handle request)
  liftExcept (env.generateContent handle request)

/-! ## Upload handling (both variants) -/

/-- A file part of a multipart request before multer has stored it. -/
structure IncomingFile where
  originalname : String
  mimetype : String
  content : Bytes
  deriving DecidableEq, Repr

/-- The list `allowedTypes` of the `fileFilter`. -/
def allowedTypes : List String :=
  [ "image/jpeg", "image/png", "image/webp",
    "application/pdf",
    "application/vnd.openxmlformats-officedocument.wordprocessingml.document",
    "text/plain" ]

/-- The `fileFilter` callback, the same text in both variants: `cb(null, true)`
is `ok true`, `cb(new Error(..))` is the error message. -/
def fileFilter (file : IncomingFile) : Except String Bool :=
  if allowedTypes.contains file.mimetype then .ok true else .error "ประเภทไฟล์ไม่รองรับ"

/-- The limit `limits.fileSize`. -/
def fileSizeLimit : Nat := 15 * 1024 * 1024

/-- The middleware `multer({dest: 'uploads/', limits, fileFilter}).single('file')`:
no file part leaves `req.file` undefined; a file the filter rejects or that is
longer than the limit is an error and nothing stays on disk; otherwise the file
is stored under `uploads/` with the generated name `tmpName`. -/
def upload (tmpName : String) (file : Option IncomingFile) : M (Option StoredFile) :=
  match file with
  | none => pure none
  | some f => do
    let _ ← liftExcept (fileFilter f)
    if f.content.length > fileSizeLimit then
      raise "File too large"
    else
      let path := "uploads/" ++ tmpName
      fun w =>
        (.ok (some { path := path, mimetype := f.mimetype, size := f.content.length }),
          { w with fs := (path, f.content) :: removeFile w.fs path })

/-- An HTTP response body. -/
inductive Body where
  /-- The body `{response}` of `/chat`. -/
  | chat (response : String)
  /-- The body `{question, answer, sources}` of `/ask`. -/
  | ask (question : String) (answer : String) (sources : List String)
  /-- The body `{question, content}` of `/ask-upload`; `none` is `undefined` for
  the question and `null` for the content. -/
  | askUpload (question : Option String) (content : Option String)
  /-- The body `{error}` or `{error, details}`. -/
  | error (error : String) (details : Option String)
  /-- The page of the default error handler of express. -/
  | expressError (message : String)
  deriving DecidableEq, Repr

/-- An HTTP response. -/
structure Response where
  status : Nat
  body : Body
  deriving DecidableEq, Repr

/-- What a handler leaves behind: the response and the final world. -/
structure Outcome where
  response : Response
  world : World
  deriving DecidableEq, Repr

/-- Close a handler: a computation that threw becomes the response `onError`
builds from the error message. -/
def respond (x : M Response) (onError : String → Response) (w : World) : Outcome :=
  match x w with
  | (.ok r, w') => { response := r, world := w' }
  | (.error e, w') => { response := onError e, world := w' }

/-! ## Variant 1: `processUploadedFile` and `/chat` -/

/-- The value `processUploadedFile` returns. -/
inductive FileContent where
  | image (data : String) (mimeType : String)
  | text (content : String)
  deriving DecidableEq, Repr

/-- The function `processUploadedFile`.  The image branch returns as soon as the
file is read; the other branches fall through to `fs.unlinkSync`. -/
def processUploadedFile (env : Env) (file : StoredFile) : M FileContent := do
  logCall (.processUploadedFile file)
  attempt (do
    let filePath := file.path
    let fileType := file.mimetype
    if startsWith fileType "image/" then
      let buffer ← readFileSync filePath
      return .image (env.base64 buffer) fileType
    else
      let textContent ←
        if fileType = "application/pdf" then do
          let dataBuffer ← readFileSync filePath
          let text ← liftExcept (env.pdf dataBuffer)
          pure ("เนื้อหา PDF:\n" ++ text)
        else if includes fileType "wordprocessingml.document" then do
          let document ← readFileSync filePath
          let value ← liftExcept (env.extractRawText document)
          pure ("เนื้อหาเอกสาร:\n" ++ value)
        else if fileType = "text/plain" then do
          let buffer ← readFileSync filePath
          pure ("เนื้อหาไฟล์:\n" ++ env.utf8 buffer)
        else
          pure ""
      unlinkSync filePath
      return .text textContent)
    (fun error => raise error)

/-- A `/chat` request: the multipart fields `message` and `file`. -/
structure ChatRequest where
  message : Option String
  file : Option IncomingFile
  deriving DecidableEq, Repr

/-- The first line of `promptParts`, the role-setting preamble. -/
def chatPreamble : String := "คุณเป็นผู้ช่วยตอบคำถามสำหรับคณะวิศวกรรมศาสตร์ มหาวิทยาลัยขอนแก่น"

/-- The placeholder used when the message is empty. -/
def noMessagePlaceholder : String := "(ไม่มีข้อความ, ผู้ใช้ส่งเฉพาะไฟล์)"

/-- The array `promptParts`. -/
def promptParts (userMessage : String) : List String :=
  [ chatPreamble,
    "กรุณาตอบคำถามต่อไปนี้อย่างถูกต้องและกระชับ:",
    "",
    "คำถามหรือข้อความจากผู้ใช้:",
    if userMessage ≠ "" then userMessage else noMessagePlaceholder,
    "",
    "คำตอบ:" ]

/-- The heading put before extracted file text. -/
def fileTextHeading : String := "\n\nเนื้อหาไฟล์ที่อัปโหลด:\n"

/-- The array `parts` as it stands when `generateContent` is called. -/
def chatParts (userMessage : String) (fileContent : Option FileContent) : List Part :=
  let first := join "\n" (promptParts userMessage)
  match fileContent with
  | none => [.text first]
  | some (.image data mimeType) => [.text first] ++ [.inlineData data mimeType]
  | some (.text content) => [.text (first ++ (fileTextHeading ++ content))]

/-- The `safetySettings` of `/chat`. -/
def chatSafetySettings : List SafetySetting :=
  [ { category := "HARM_CATEGORY_HARASSMENT", threshold := "BLOCK_ONLY_HIGH" },
    { category := "HARM_CATEGORY_HATE_SPEECH", threshold := "BLOCK_ONLY_HIGH" } ]

/-- The heading put before the resource links. -/
def resourcesHeading : String := "\n\nแหล่งข้อมูลเพิ่มเติม:\n"

/-- The rendering of one resource as a Markdown list item. -/
def resourceLine (r : Resource) : String :=
  "- [" ++ r.title ++ "](" ++ r.url ++ ")"

/-- The reply text after the resource links have been appended. -/
def appendResources (responseText : String) (relevantResources : List Resource) : String :=
  if relevantResources.length > 0 then
    responseText ++ resourcesHeading ++ join "\n" (relevantResources.map resourceLine)
  else
    responseText

/-- The argument of `model.generateContent` in `/chat`. -/
def chatRequest (userMessage : String) (fileContent : Option FileContent) : GenerateRequest :=
  { role := "user",
    parts := chatParts userMessage fileContent,
    safetySettings := chatSafetySettings }

/-- The statement `if (req.file) fileContent = await processUploadedFile(req.file)`,
with `fileContent` starting as `null`. -/
def processIfPresent (env : Env) (file : Option StoredFile) : M (Option FileContent) :=
  match file with
  | some f => some <$> processUploadedFile env f
  | none => pure none

/-- The `try` block of the `/chat` handler. -/
def chatTry (env : Env) (req : ChatRequest) (file : Option StoredFile) : M Response := do
  let userMessage := req.message.getD ""
  let fileContent ← processIfPresent env file
  let responseText ← generate env .model (chatRequest userMessage fileContent)
  let relevantResources ← liftExcept (findRelevantResources env.lowerAt (.string userMessage))
  pure { status := 200, body := .chat (appendResources responseText relevantResources) }

/-- The handler `app.post('/chat')`: the upload runs first and its error is
answered with 400; an error of the `try` block is answered with 500. -/
def chat (env : Env) (tmpName : String) (req : ChatRequest) (w : World) : Outcome :=
  match upload tmpName req.file w with
  | (.error err, w') =>
    { response := { status := 400, body := .error "ข้อผิดพลาดในการอัปโหลดไฟล์" (some err) },
      world := w' }
  | (.ok file, w') =>
    respond (chatTry env req file)
      (fun error => { status := 500, body := .error "ข้อผิดพลาดในการประมวลผล" (some error) }) w'

/-! ## Variant 2: the context builder -/

/-- An entry of `trainedData.images`. -/
structure TrainedImage where
  path : String
  mimeType : String
  description : String
  deriving DecidableEq, Repr

/-- An entry of `trainedData.documents`. -/
structure TrainedDocument where
  path : String
  type : String
  deriving DecidableEq, Repr

/-- The call `path.join(__dirname, 'data', name)`. -/
def dataPath (env : Env) (name : String) : String :=
  env.dirname ++ "/data/" ++ name

/-- The entries of `trainedData.images`, in the order of `Object.entries`. -/
def trainedImages (env : Env) : List (String × TrainedImage) :=
  [ ("tuition",
      { path := dataPath env "ค่าธรรมเนียมการศึกษาป.ตรี-650x900.png",
        mimeType := "image/png",
        description := "ตารางค่าธรรมเนียมการศึกษาคณะวิศวกรรมศาสตร์ มข." }),
    ("contact",
      { path := dataPath env "ช่องทางการติดต่อสำหรับนักศึกษาปตรี.jpg",
        mimeType := "image/jpeg",
        description := "ช่องทางการติดต่อคณะวิศวกรรมศาสตร์ มข." }) ]

/-- The entries of `trainedData.documents`, in the order of `Object.entries`. -/
def trainedDocuments (env : Env) : List (String × TrainedDocument) :=
  [ ("faq",
      { path := dataPath env
          "FAQ สำหรับจัดทำ Chat bot เพจคณะวิศวกรรมศาสตร์ มหาวิทยาลัยขอนแก่น.pdf",
        type := "pdf" }),
    ("admission",
      { path := dataPath env "เอกสารการเข้ารับการศึกษา.pdf", type := "pdf" }) ]

/-- The constant `trainedData.website`. -/
def trainedWebsite : String :=
  "https://www.en.kku.ac.th/web/%E0%B8%87%E0%B8%B2%E0%B8%99%E0%B8%9A%E0%B8%A3%E0%B8%B4%E0%B8%81%E0%B8%B2%E0%B8%A3%E0%B8%A7%E0%B8%B4%E0%B8%8A%E0%B8%B2%E0%B8%81%E0%B8%B2%E0%B8%A3%E0%B9%81%E0%B8%A5%E0%B8%B0%E0%B8%A7%E0%B8%B4%E0%B8%88/#1523875822874-a039c957-3a3f"

/-- The function `scrapeWebsite`: the selected texts, each followed by a line
break; `none` is the `null` returned when the fetch throws. -/
def scrapeWebsite (env : Env) (url : String) : M (Option String) := do
  logCall (.scrapeWebsite url)
  attempt (do
    let data ← liftExcept (env.axiosGet url)
    let content := (env.selectTexts data).foldl (fun content text => content ++ text ++ "\n") ""
    return some content)
    (fun _ => pure none)

/-- The function `readPDF`: the extracted text; `none` is the `null` returned
when reading or parsing throws. -/
def readPDF (env : Env) (filePath : String) : M (Option String) := do
  logCall (.readPDF filePath)
  attempt (do
    let dataBuffer ← readFileSync filePath
    let text ← liftExcept (env.pdf dataBuffer)
    return some text)
    (fun _ => pure none)

/-- The argument of `visionModel.generateContent` in `analyzeImage`. -/
def visionRequest (env : Env) (buffer : Bytes) (mimeType : String) (question : String) :
    GenerateRequest :=
  let imageParts := [Part.inlineData (env.base64 buffer) mimeType]
  let prompt :=
    if question ≠ "" then "จากภาพนี้: " ++ question ++ " (ตอบอย่างละเอียดและถูกต้อง)"
    else "อธิบายเนื้อหาภาพนี้อย่างละเอียด"
  { role := "user", parts := [Part.text prompt] ++ imageParts, safetySettings := [] }

/-- The function `analyzeImage`; `question` is `none` when the argument is
`undefined`, which the default parameter turns into the empty string. -/
def analyzeImage (env : Env) (imagePath : String) (mimeType : String)
    (question : Option String) : M String := do
  logCall (.analyzeImage imagePath)
  attempt (do
    let question := question.getD ""
    let buffer ← readFileSync imagePath
    generate env .visionModel (visionRequest env buffer mimeType question))
    (fun error => raise error)

/-- A value of `imageData`. -/
structure ImageDatum where
  description : String
  content : String
  deriving DecidableEq, Repr

/-- A value of `documentData`; `content` is `none` when `readPDF` returned `null`. -/
structure DocumentDatum where
  type : String
  content : Option String
  deriving DecidableEq, Repr

/-- The value `prepareAllData` returns. -/
structure AllData where
  imageData : List (String × ImageDatum)
  documentData : List (String × DocumentDatum)
  websiteData : Option String
  deriving DecidableEq, Repr

/-- The first loop of `prepareAllData`, from the entries still to visit and the
object built so far. -/
def collectImages (env : Env) :
    List (String × TrainedImage) → List (String × ImageDatum) → M (List (String × ImageDatum))
  | [], imageData => pure imageData
  | (key, img) :: rest, imageData => do
    if (← existsSync img.path) then
      let content ← analyzeImage env img.path img.mimeType none
      collectImages env rest (mapSet key { description := img.description, content := content }
        imageData)
    else
      collectImages env rest imageData

/-- The second loop of `prepareAllData`. -/
def collectDocuments (env : Env) :
    List (String × TrainedDocument) → List (String × DocumentDatum) →
      M (List (String × DocumentDatum))
  | [], documentData => pure documentData
  | (key, doc) :: rest, documentData => do
    if (← existsSync doc.path) then
      let content ← readPDF env doc.path
      collectDocuments env rest (mapSet key { type := doc.type, content := content } documentData)
    else
      collectDocuments env rest documentData

/-- The function `prepareAllData`. -/
def prepareAllData (env : Env) : M AllData := do
  logCall .prepareAllData
  attempt (do
    let imageData ← collectImages env (trainedImages env) []
    let documentData ← collectDocuments env (trainedDocuments env) []
    let websiteData ← scrapeWebsite env trainedWebsite
    return { imageData := imageData, documentData := documentData, websiteData := websiteData })
    (fun error => raise error)

/-! ## Variant 2: `/ask` -/

/-- The function `JSON.stringify` on an object whose values are already serialised. -/
def stringifyObject (env : Env) (fields : List (String × String)) : String :=
  "\x7b" ++ join "," (fields.map (fun field => env.jsonQuote field.1 ++ ":" ++ field.2)) ++ "\x7d"

/-- The function `JSON.stringify` on `imageData`. -/
def stringifyImageData (env : Env) (imageData : List (String × ImageDatum)) : String :=
  stringifyObject env (imageData.map (fun entry =>
    (entry.1, stringifyObject env
      [ ("description", env.jsonQuote entry.2.description),
        ("content", env.jsonQuote entry.2.content) ])))

/-- The function `JSON.stringify` on `documentData`. -/
def stringifyDocumentData (env : Env) (documentData : List (String × DocumentDatum)) : String :=
  stringifyObject env (documentData.map (fun entry =>
    (entry.1, stringifyObject env
      [ ("type", env.jsonQuote entry.2.type),
        ("content", match entry.2.content with
          | some text => env.jsonQuote text
          | none => "null") ])))

/-- The template literal `context` of `/ask`. -/
def askContext (env : Env) (allData : AllData) : String :=
  "\n      ข้อมูลจากรูปภาพ:\n      " ++ stringifyImageData env allData.imageData ++
  "\n      \n      ข้อมูลจากเอกสาร:\n      " ++ stringifyDocumentData env allData.documentData ++
  "\n      \n      ข้อมูลจากเว็บไซต์:\n      " ++ allData.websiteData.getD "null" ++
  "\n    "

/-- The four content parts `/ask` sends to the text model. -/
def askParts (env : Env) (question : String) (allData : AllData) : List Part :=
  [ .text "คุณเป็นผู้ช่วยตอบคำถามสำหรับคณะวิศวกรรมศาสตร์ มหาวิทยาลัยขอนแก่น",
    .text "กรุณาตอบคำถามต่อไปนี้โดยอ้างอิงจากข้อมูลด้านล่าง:",
    .text ("คำถาม: " ++ question),
    .text ("ข้อมูลอ้างอิง:\n" ++ askContext env allData) ]

/-- The function `Object.keys` on an object kept in insertion order. -/
def objectKeys {β : Type} (object : List (String × β)) : List String :=
  object.map Prod.fst

/-- The array `sources` of the `/ask` response. -/
def askSources (allData : AllData) : List String :=
  objectKeys allData.imageData ++ (objectKeys allData.documentData ++ ["website"])

/-- An `/ask` request: the JSON field `question`, `none` when it is absent. -/
structure AskRequest where
  question : Option String
  deriving DecidableEq, Repr

/-- The argument of `textModel.generateContent` in `/ask`. -/
def askRequest (env : Env) (question : String) (allData : AllData) : GenerateRequest :=
  { role := "user", parts := askParts env question allData, safetySettings := [] }

/-- The `try` block of the `/ask` handler. -/
def askTry (env : Env) (req : AskRequest) : M Response := do
  let question := req.question
  if question.getD "" = "" then
    return { status := 400, body := .error "กรุณาระบุคำถาม" none }
  else
    let question := question.getD ""
    let allData ← prepareAllData env
    let response ← generate env .textModel (askRequest env question allData)
    return { status := 200, body := .ask question response (askSources allData) }

/-- The handler `app.post('/ask')`. -/
def ask (env : Env) (req : AskRequest) (w : World) : Outcome :=
  respond (askTry env req)
    (fun error => { status := 500, body := .error "ข้อผิดพลาดในการประมวลผล" (some error) }) w

/-! ## Variant 2: `/ask-upload` -/

/-- An `/ask-upload` request: the multipart fields `question` and `file`. -/
structure AskUploadRequest where
  question : Option String
  file : Option IncomingFile
  deriving DecidableEq, Repr

/-- The `try` block of the `/ask-upload` handler. -/
def askUploadTry (env : Env) (req : AskUploadRequest) (file : StoredFile) : M Response := do
  let question := req.question
  let filePath := file.path
  let fileType := file.mimetype
  let content ←
    if startsWith fileType "image/" then
      some <$> analyzeImage env filePath fileType question
    else if fileType = "application/pdf" then
      readPDF env filePath
    else
      pure (some "")
  unlinkSync filePath
  return { status := 200, body := .askUpload question content }

/-- The handler `app.post('/ask-upload', upload, ...)`: an error of the upload
middleware goes to the default error handler of express, which answers 500. -/
def askUpload (env : Env) (tmpName : String) (req : AskUploadRequest) (w : World) : Outcome :=
  match upload tmpName req.file w with
  | (.error err, w') =>
    { response := { status := 500, body := .expressError err }, world := w' }
  | (.ok none, w') =>
    { response := { status := 400, body := .error "กรุณาอัปโหลดไฟล์" none }, world := w' }
  | (.ok (some file), w') =>
    respond (askUploadTry env req file)
      (fun error => { status := 500, body := .error "ข้อผิดพลาดในการประมวลผลไฟล์" (some error) }) w'


/-! ## Specification-side definitions for the matcher -/

/-- The six trigger terms of the matcher. -/
def triggerTerms : List String :=
  ["สมัคร", "รับเข้า", "ค่าเทอม", "ค่าธรรมเนียม", "หลักสูตร", "วิชา"]

/-- One of the two admission terms occurs in the lower-cased query. -/
def admissionTriggered (lowerAt : LowerTable) (query : String) : Bool :=
  includes (toLowerCase lowerAt query) "สมัคร" || includes (toLowerCase lowerAt query) "รับเข้า"

/-- One of the two tuition terms occurs in the lower-cased query. -/
def tuitionTriggered (lowerAt : LowerTable) (query : String) : Bool :=
  includes (toLowerCase lowerAt query) "ค่าเทอม" ||
    includes (toLowerCase lowerAt query) "ค่าธรรมเนียม"

/-- One of the two curriculum terms occurs in the lower-cased query. -/
def curriculumTriggered (lowerAt : LowerTable) (query : String) : Bool :=
  includes (toLowerCase lowerAt query) "หลักสูตร" || includes (toLowerCase lowerAt query) "วิชา"

/-- The matcher as the specification words it: the entries of the matching
categories, concatenated in the order admission, tuition, curriculum. -/
def matchingEntries (lowerAt : LowerTable) (table : ResourceTable) (query : String) :
    List Resource :=
  (if admissionTriggered lowerAt query then table.admission else []) ++
  ((if tuitionTriggered lowerAt query then table.tuition else []) ++
   (if curriculumTriggered lowerAt query then table.curriculum else []))

/-! ## Worlds and values used in the statements -/

/-- The world after the call `c` has been recorded. -/
def World.logged (w : World) (c : Call) : World :=
  { w with trace := w.trace ++ [c] }

/-- The world after multer has stored `content` under `uploads/tmpName`. -/
def World.stored (w : World) (tmpName : String) (content : Bytes) : World :=
  { w with fs := ("uploads/" ++ tmpName, content) :: removeFile w.fs ("uploads/" ++ tmpName) }

/-- The calls made since the trace had the length `before`. -/
def newCalls (before : World) (after : World) : List Call :=
  after.trace.drop before.trace.length

/-- The 500 response of `/chat` and `/ask`. -/
def processingError (details : String) : Response :=
  { status := 500, body := .error "ข้อผิดพลาดในการประมวลผล" (some details) }

/-- The 500 response of `/ask-upload`. -/
def fileProcessingError (details : String) : Response :=
  { status := 500, body := .error "ข้อผิดพลาดในการประมวลผลไฟล์" (some details) }

/-- The 400 response of `/chat` to a failed upload. -/
def uploadError (details : String) : Response :=
  { status := 400, body := .error "ข้อผิดพลาดในการอัปโหลดไฟล์" (some details) }

/-- The text `processUploadedFile` extracts from a file that is not an image,
given the bytes of the file: the value of `textContent` before the unlink, or
the message of the error the parser threw. -/
def extractedText (env : Env) (fileType : String) (bytes : Bytes) : Except String String :=
  if fileType = "application/pdf" then
    match env.pdf bytes with
    | .ok text => .ok ("เนื้อหา PDF:\n" ++ text)
    | .error e => .error e
  else if includes fileType "wordprocessingml.document" then
    match env.extractRawText bytes with
    | .ok value => .ok ("เนื้อหาเอกสาร:\n" ++ value)
    | .error e => .error e
  else if fileType = "text/plain" then
    .ok ("เนื้อหาไฟล์:\n" ++ env.utf8 bytes)
  else
    .ok ""

/-! ## A sample environment -/

/-- The base64 alphabet. -/
def base64Chars : List Char :=
  "ABCDEFGHIJKLMNOPQRSTUVWXYZabcdefghijklmnopqrstuvwxyz0123456789+/".data

/-- The base64 digit of a six-bit value. -/
def base64Digit (n : Nat) : Char := base64Chars.getD n 'A'

/-- Standard base64 encoding with padding. -/
def base64Encode : List Nat → List Char
  | [] => []
  | [a] => [base64Digit (a / 4), base64Digit (a % 4 * 16), '=', '=']
  | [a, b] =>
    [base64Digit (a / 4), base64Digit (a % 4 * 16 + b / 16), base64Digit (b % 16 * 4), '=']
  | a :: b :: c :: rest =>
    base64Digit (a / 4) :: base64Digit (a % 4 * 16 + b / 16) ::
      base64Digit (b % 16 * 4 + c / 64) :: base64Digit (c % 64) :: base64Encode rest

/-- A sample environment: every model answers `คำตอบ`, the PDF parser accepts
the files that start with `%PDF` and throws on the others, the web site cannot
be reached, and text files are ASCII. -/
def sampleEnv : Env where
  lowerAt := asciiLower
  base64 := fun bytes => ⟨base64Encode bytes⟩
  utf8 := fun bytes => ⟨bytes.map Char.ofNat⟩
  pdf := fun bytes =>
    if bytes.take 4 = [37, 80, 68, 70] then .ok "ข้อความในเอกสาร" else .error "Invalid PDF structure"
  extractRawText := fun _ => .ok "ข้อความในเอกสาร"
  generateContent := fun _ _ => .ok "คำตอบ"
  axiosGet := fun _ => .error "connect ECONNREFUSED"
  selectTexts := fun _ => []
  jsonQuote := fun s => "\"" ++ s ++ "\""
  dirname := "/srv/server"

/-- The sample environment with models that are out of quota. -/
def quotaEnv : Env :=
  { sampleEnv with generateContent := fun _ _ => .error "429 Too Many Requests" }

/-- The first bytes of a PNG file. -/
def pngBytes : Bytes := [137, 80, 78, 71, 13, 10, 26, 10]

/-- A world with no files and no calls. -/
def emptyWorld : World := { fs := [], trace := [] }

/-- The rendering of the tuition entry, as it appears in a reply. -/
def tuitionLine : String :=
  "- [ค่าธรรมเนียมการศึกษาปริญญาตรี](https://www.en.kku.ac.th/web/tuition-fees)"

/-- A PNG posted to `/chat` without a message. -/
def pngRequest : ChatRequest :=
  { message := none,
    file := some { originalname := "photo.png", mimetype := "image/png", content := pngBytes } }

/-- The question about the tuition fee, posted to `/chat` without a file. -/
def tuitionRequest : ChatRequest :=
  { message := some "ค่าเทอมเท่าไหร่", file := none }

/-- Bytes that are not a PDF document. -/
def brokenPdfBytes : Bytes := [110, 111, 116, 32, 97, 32, 80, 68, 70]

/-- A file declared as PDF whose content is not a PDF document, posted to
`/ask-upload` with a question. -/
def brokenPdfRequest : AskUploadRequest :=
  { question := some "สรุปเอกสารนี้",
    file := some { originalname := "notes.pdf", mimetype := "application/pdf",
                   content := brokenPdfBytes } }

/-- A world of variant 2 in which the contact image and the admission document
are present and the other two trained files are missing. -/
def sampleWorld : World :=
  { fs := [ ("/srv/server/data/ช่องทางการติดต่อสำหรับนักศึกษาปตรี.jpg", [255, 216, 255, 224]),
            ("/srv/server/data/เอกสารการเข้ารับการศึกษา.pdf", [37, 80, 68, 70, 45]) ],
    trace := [] }

/-- The sample environment with a vision model that answers for PNG images and
is unavailable for JPEG images. -/
def jpegFailingEnv : Env :=
  { sampleEnv with
    generateContent := fun handle request =>
      if handle = .visionModel ∧
          request.parts.any (fun part =>
            match part with
            | .inlineData _ mimeType => mimeType == "image/jpeg"
            | .text _ => false) then
        .error "503 Service Unavailable"
      else
        .ok "คำตอบ" }

/-- A world of variant 2 in which both trained images are present. -/
def imagesWorld : World :=
  { fs := [ ("/srv/server/data/ค่าธรรมเนียมการศึกษาป.ตรี-650x900.png", pngBytes),
            ("/srv/server/data/ช่องทางการติดต่อสำหรับนักศึกษาปตรี.jpg", [255, 216, 255, 224]) ],
    trace := [] }

/-! ## Specification-side definitions for variant 2 -/

/-- What `readPDF` returns for a path in a file system: the text of the parser,
or `none` when the file is missing or the parser throws. -/
def pdfText (env : Env) (fs : FileSystem) (filePath : String) : Option String :=
  match fs.lookup filePath with
  | some bytes =>
    match env.pdf bytes with
    | .ok text => some text
    | .error _ => none
  | none => none

/-- What `scrapeWebsite` returns for a url: the selected texts, each followed
by a line break, or `none` when the fetch throws. -/
def scrapedText (env : Env) (url : String) : Option String :=
  match env.axiosGet url with
  | .ok data => some ((env.selectTexts data).foldl (fun content text => content ++ text ++ "\n") "")
  | .error _ => none

/-- The keys of the trained images whose file is present. -/
def presentImageKeys (env : Env) (fs : FileSystem) : List String :=
  ((trainedImages env).filter (fun entry => fileExists fs entry.2.path)).map Prod.fst

/-- The keys of the trained documents whose file is present. -/
def presentDocumentKeys (env : Env) (fs : FileSystem) : List String :=
  ((trainedDocuments env).filter (fun entry => fileExists fs entry.2.path)).map Prod.fst

/-- The value of `documentData` after the second loop of `prepareAllData`: one
entry for each trained document whose file is present, in the order of the
table, holding what `readPDF` returned for it. -/
def expectedDocumentData (env : Env) (fs : FileSystem) : List (String × DocumentDatum) :=
  ((trainedDocuments env).filter (fun entry => fileExists fs entry.2.path)).map
    (fun entry => (entry.1, { type := entry.2.type, content := pdfText env fs entry.2.path }))

/-- The vision model answers for the image `img` in the file system `fs`, if
the file of the image is there. -/
def ImageAnalysed (env : Env) (fs : FileSystem) (img : TrainedImage) : Prop :=
  ∀ bytes, fs.lookup img.path = some bytes →
    ∃ text, env.generateContent .visionModel (visionRequest env bytes img.mimeType "") = .ok text

/-! ## Lemmas on strings -/

theorem includes_iff (s t : String) : includes s t = true ↔ t.data <:+: s.data := by
  unfold includes
  rw [List.any_eq_true]
  constructor
  · rintro ⟨u, hu, hp⟩
    rw [List.mem_tails] at hu
    rw [List.isPrefixOf_iff_prefix] at hp
    exact List.infix_iff_prefix_suffix.mpr ⟨u, hp, hu⟩
  · intro h
    obtain ⟨u, hp, hs⟩ := List.infix_iff_prefix_suffix.mp h
    exact ⟨u, (List.mem_tails _ _).mpr hs, List.isPrefixOf_iff_prefix.mpr hp⟩

theorem lowerFrom_cons (lowerAt : LowerTable) (before : List Char) (c : Char) (rest : List Char) :
    lowerFrom lowerAt before (c :: rest) =
      lowerAt before c rest ++ lowerFrom lowerAt (before ++ [c]) rest := rfl

theorem lowerFrom_thai (lowerAt : LowerTable) (h : ThaiCaseless lowerAt) (t : List Char)
    (ht : ∀ c ∈ t, isThai c = true) (before rest : List Char) :
    lowerFrom lowerAt before (t ++ rest) = t ++ lowerFrom lowerAt (before ++ t) rest := by
  induction t generalizing before with
  | nil => simp
  | cons c t ih =>
    have hc : isThai c = true := ht c (List.mem_cons_self _ _)
    have ht' : ∀ d ∈ t, isThai d = true := fun d hd => ht d (List.mem_cons_of_mem _ hd)
    rw [List.cons_append, lowerFrom_cons, h before c (t ++ rest) hc, ih ht' (before ++ [c])]
    simp

theorem lowerFrom_split (lowerAt : LowerTable) (a before rest : List Char) :
    ∃ pre, lowerFrom lowerAt before (a ++ rest) = pre ++ lowerFrom lowerAt (before ++ a) rest := by
  induction a generalizing before with
  | nil => exact ⟨[], by simp⟩
  | cons c a ih =>
    obtain ⟨pre, hpre⟩ := ih (before ++ [c])
    refine ⟨lowerAt before c (a ++ rest) ++ pre, ?_⟩
    rw [List.cons_append, lowerFrom_cons, hpre]
    simp

/-- Lower-casing keeps every occurrence of a Thai term. -/
theorem includes_toLowerCase (lowerAt : LowerTable) (h : ThaiCaseless lowerAt) (s t : String)
    (ht : ∀ c ∈ t.data, isThai c = true) (hs : includes s t = true) :
    includes (toLowerCase lowerAt s) t = true := by
  rw [includes_iff] at hs ⊢
  obtain ⟨a, b, hab⟩ := hs
  obtain ⟨pre, hpre⟩ := lowerFrom_split lowerAt a [] (t.data ++ b)
  have h2 := lowerFrom_thai lowerAt h t.data ht ([] ++ a) b
  refine ⟨pre, lowerFrom lowerAt ([] ++ a ++ t.data) b, ?_⟩
  show _ = lowerFrom lowerAt [] s.data
  rw [← hab, List.append_assoc a, hpre, h2, List.append_assoc]

theorem asciiLower_thaiCaseless : ThaiCaseless asciiLower := by
  intro before c after hc
  unfold isThai at hc
  simp only [Bool.and_eq_true, decide_eq_true_eq] at hc
  unfold asciiLower Char.toLower
  have hn : ¬ (c.toNat ≥ 65 ∧ c.toNat ≤ 90) := by omega
  show [if c.toNat ≥ 65 ∧ c.toNat ≤ 90 then Char.ofNat (c.toNat + 32) else c] = [c]
  rw [if_neg hn]

/-! ## Lemmas on the matcher -/

theorem matchResources_eq (lowerAt : LowerTable) (query : String) :
    matchResources lowerAt kkuResources query = matchingEntries lowerAt kkuResources query := by
  unfold matchResources matchingEntries admissionTriggered tuitionTriggered curriculumTriggered
  dsimp only
  generalize (includes (toLowerCase lowerAt query) "สมัคร" ||
    includes (toLowerCase lowerAt query) "รับเข้า") = a
  generalize (includes (toLowerCase lowerAt query) "ค่าเทอม" ||
    includes (toLowerCase lowerAt query) "ค่าธรรมเนียม") = b
  generalize (includes (toLowerCase lowerAt query) "หลักสูตร" ||
    includes (toLowerCase lowerAt query) "วิชา") = c
  cases a <;> cases b <;> cases c <;> rfl

theorem findRelevantResources_string (lowerAt : LowerTable) (query : String) :
    findRelevantResources lowerAt (.string query) =
      .ok (matchingEntries lowerAt kkuResources query) := by
  unfold findRelevantResources
  by_cases hq : query = ""
  · subst hq
    rfl
  · simp only [JsValue.truthy, ne_eq, hq, not_false_eq_true, decide_True, Bool.not_true,
      Bool.false_eq_true, ↓reduceIte, matchResources_eq]

theorem matchingEntries_nodup (lowerAt : LowerTable) (query : String) :
    ((matchingEntries lowerAt kkuResources query).map Resource.url).Nodup := by
  unfold matchingEntries
  cases admissionTriggered lowerAt query <;> cases tuitionTriggered lowerAt query <;>
    cases curriculumTriggered lowerAt query <;> decide

/-! ## Lemmas on running computations -/

theorem run_pure {α : Type} (a : α) (w : World) : (pure a : M α) w = (.ok a, w) := rfl

theorem run_bind {α β : Type} (x : M α) (f : α → M β) (w : World) :
    (x >>= f) w = match x w with
      | (.ok a, w') => f a w'
      | (.error e, w') => (.error e, w') := rfl

theorem run_map {α β : Type} (g : α → β) (x : M α) (w : World) :
    (g <$> x) w = match x w with
      | (.ok a, w') => (.ok (g a), w')
      | (.error e, w') => (.error e, w') := by
  show M.bind x _ w = _
  unfold M.bind
  rcases x w with ⟨r, w'⟩
  cases r <;> rfl

theorem run_logCall (c : Call) (w : World) : logCall c w = (.ok (), w.logged c) := rfl

theorem run_generate (env : Env) (handle : ModelName) (request : GenerateRequest) (w : World) :
    generate env handle request w =
      (env.generateContent handle request, w.logged (.generateContent handle request)) := rfl

theorem lookup_of_fileExists (fs : FileSystem) (path : String) (h : fileExists fs path = true) :
    ∃ bytes, fs.lookup path = some bytes := by
  induction fs with
  | nil => simp [fileExists] at h
  | cons entry rest ih =>
    obtain ⟨p, b⟩ := entry
    by_cases hp : path = p
    · subst hp
      exact ⟨b, by simp [List.lookup]⟩
    · have hne : (path == p) = false := by simpa using hp
      simp only [List.lookup, hne]
      apply ih
      simp only [fileExists, List.any_cons, decide_eq_true_eq, Bool.or_eq_true] at h
      rcases h with h | h
      · exact absurd h.symm hp
      · exact h

theorem lookup_none_of_not_fileExists (fs : FileSystem) (path : String)
    (h : fileExists fs path = false) : fs.lookup path = none := by
  induction fs with
  | nil => rfl
  | cons entry rest ih =>
    obtain ⟨p, b⟩ := entry
    simp only [fileExists, List.any_cons, Bool.or_eq_false_iff, decide_eq_false_iff_not] at h
    have hne : (path == p) = false := by
      simp only [beq_eq_false_iff_ne, ne_eq]
      exact fun hp => h.1 hp.symm
    simp only [List.lookup, hne]
    exact ih h.2

theorem fileExists_removeFile (fs : FileSystem) (path : String) :
    fileExists (removeFile fs path) path = false := by
  unfold fileExists removeFile
  rw [List.any_eq_false]
  intro entry he
  simp only [List.mem_filter, decide_eq_true_eq] at he
  simpa using he.2

/-! ## Lemmas on the upload -/

theorem upload_none (tmpName : String) (w : World) : upload tmpName none w = (.ok none, w) := rfl

theorem upload_reject (tmpName : String) (f : IncomingFile) (w : World)
    (h : f.mimetype ∉ allowedTypes) :
    upload tmpName (some f) w = (.error "ประเภทไฟล์ไม่รองรับ", w) := by
  simp [upload, fileFilter, h, run_bind, liftExcept]

theorem upload_too_large (tmpName : String) (f : IncomingFile) (w : World)
    (h : f.mimetype ∈ allowedTypes) (hs : f.content.length > fileSizeLimit) :
    upload tmpName (some f) w = (.error "File too large", w) := by
  simp [upload, fileFilter, h, run_bind, liftExcept, hs, raise]

theorem upload_accept (tmpName : String) (f : IncomingFile) (w : World)
    (h : f.mimetype ∈ allowedTypes) (hs : f.content.length ≤ fileSizeLimit) :
    upload tmpName (some f) w =
      (.ok (some { path := "uploads/" ++ tmpName, mimetype := f.mimetype,
                   size := f.content.length }), w.stored tmpName f.content) := by
  have hs' : ¬ f.content.length > fileSizeLimit := by omega
  simp [upload, fileFilter, h, run_bind, liftExcept, hs', World.stored]

/-- The upload leaves the trace alone. -/
theorem upload_trace (tmpName : String) (file : Option IncomingFile) (w : World) :
    (upload tmpName file w).2.trace = w.trace := by
  cases file with
  | none => rfl
  | some f =>
    by_cases h : f.mimetype ∈ allowedTypes
    · by_cases hs : f.content.length ≤ fileSizeLimit
      · rw [upload_accept tmpName f w h hs]; rfl
      · rw [upload_too_large tmpName f w h (by omega)]
    · rw [upload_reject tmpName f w h]

/-! ## Lemmas on `processUploadedFile` -/

theorem fileExists_of_lookup (fs : FileSystem) (path : String) (bytes : Bytes)
    (h : fs.lookup path = some bytes) : fileExists fs path = true := by
  by_contra hn
  rw [lookup_none_of_not_fileExists fs path (by simpa using hn)] at h
  cases h

theorem processUploadedFile_image (env : Env) (file : StoredFile) (w : World) (bytes : Bytes)
    (h : startsWith file.mimetype "image/" = true) (hl : w.fs.lookup file.path = some bytes) :
    processUploadedFile env file w =
      (.ok (.image (env.base64 bytes) file.mimetype), w.logged (.processUploadedFile file)) := by
  simp [processUploadedFile, run_bind, run_logCall, attempt, h, readFileSync, run_pure,
    World.logged, hl]

theorem processUploadedFile_text (env : Env) (file : StoredFile) (w : World) (bytes : Bytes)
    (h : startsWith file.mimetype "image/" = false) (hl : w.fs.lookup file.path = some bytes) :
    processUploadedFile env file w =
      match extractedText env file.mimetype bytes with
      | .ok text => (.ok (.text text),
          { fs := removeFile w.fs file.path,
            trace := w.trace ++ [.processUploadedFile file] })
      | .error e => (.error e, w.logged (.processUploadedFile file)) := by
  have hx := fileExists_of_lookup w.fs file.path bytes hl
  simp only [processUploadedFile, run_bind, run_logCall, attempt, h, readFileSync, run_pure,
    World.logged, hl, extractedText, liftExcept, unlinkSync, raise, Bool.false_eq_true, if_false]
  by_cases h1 : file.mimetype = "application/pdf"
  · simp only [h1, if_true, run_bind, hl]
    cases hp : env.pdf bytes <;> simp [run_pure, hx, hl, hp, readFileSync, liftExcept, unlinkSync]
  · simp only [h1, if_false]
    by_cases h2 : includes file.mimetype "wordprocessingml.document" = true
    · simp only [h2, if_true, run_bind, hl]
      cases hp : env.extractRawText bytes <;>
        simp [run_pure, hx, hl, hp, readFileSync, liftExcept, unlinkSync]
    · simp only [h2, if_false, Bool.false_eq_true]
      by_cases h3 : file.mimetype = "text/plain"
      · simp [h3, run_bind, hl, run_pure, hx, readFileSync, liftExcept, unlinkSync]
      · simp [h3, run_bind, hl, run_pure, hx, readFileSync, liftExcept, unlinkSync]

/-! ## Lemmas on `/chat` -/

/-- The `try` block of `/chat`, step by step. -/
theorem chatTry_run (env : Env) (req : ChatRequest) (file : Option StoredFile) (w : World) :
    chatTry env req file w =
      match processIfPresent env file w with
      | (.error e, w2) => (.error e, w2)
      | (.ok fileContent, w2) =>
        match env.generateContent .model (chatRequest (req.message.getD "") fileContent) with
        | .ok text =>
          (.ok { status := 200,
                 body := .chat (appendResources text
                   (matchingEntries env.lowerAt kkuResources (req.message.getD ""))) },
            w2.logged (.generateContent .model (chatRequest (req.message.getD "") fileContent)))
        | .error e =>
          (.error e,
            w2.logged (.generateContent .model (chatRequest (req.message.getD "") fileContent))) := by
  simp only [chatTry, run_bind]
  rcases processIfPresent env file w with ⟨r, w2⟩
  cases r with
  | error e => rfl
  | ok fileContent =>
    simp only [run_generate]
    cases env.generateContent .model (chatRequest (req.message.getD "") fileContent) with
    | error e => rfl
    | ok text => simp [liftExcept, findRelevantResources_string, run_pure]

/-- The handler `/chat`, step by step. -/
theorem chat_run (env : Env) (tmpName : String) (req : ChatRequest) (w : World) :
    chat env tmpName req w =
      match upload tmpName req.file w with
      | (.error err, w1) => { response := uploadError err, world := w1 }
      | (.ok file, w1) =>
        match processIfPresent env file w1 with
        | (.error e, w2) => { response := processingError e, world := w2 }
        | (.ok fileContent, w2) =>
          match env.generateContent .model (chatRequest (req.message.getD "") fileContent) with
          | .ok text =>
            { response :=
                { status := 200,
                  body := .chat (appendResources text
                    (matchingEntries env.lowerAt kkuResources (req.message.getD ""))) },
              world := w2.logged
                (.generateContent .model (chatRequest (req.message.getD "") fileContent)) }
          | .error e =>
            { response := processingError e,
              world := w2.logged
                (.generateContent .model (chatRequest (req.message.getD "") fileContent)) } := by
  unfold chat
  rcases upload tmpName req.file w with ⟨r, w1⟩
  cases r with
  | error err => rfl
  | ok file =>
    simp only [respond, chatTry_run]
    rcases processIfPresent env file w1 with ⟨r2, w2⟩
    cases r2 with
    | error e => rfl
    | ok fileContent =>
      simp only
      cases env.generateContent .model (chatRequest (req.message.getD "") fileContent) <;> rfl

theorem processIfPresent_none (env : Env) (w : World) :
    processIfPresent env none w = (.ok none, w) := rfl

theorem processIfPresent_some (env : Env) (file : StoredFile) (w : World) :
    processIfPresent env (some file) w =
      match processUploadedFile env file w with
      | (.ok content, w') => (.ok (some content), w')
      | (.error e, w') => (.error e, w') := by
  simp only [processIfPresent, run_map]
  rcases processUploadedFile env file w with ⟨r, w'⟩
  cases r <;> rfl

theorem lookup_stored (w : World) (tmpName : String) (content : Bytes) :
    (w.stored tmpName content).fs.lookup ("uploads/" ++ tmpName) = some content := by
  simp [World.stored, List.lookup]

/-! ## Lemmas on the context builder -/

theorem analyzeImage_run (env : Env) (imagePath mimeType : String) (question : Option String)
    (w : World) :
    analyzeImage env imagePath mimeType question w =
      match w.fs.lookup imagePath with
      | some bytes =>
        (env.generateContent .visionModel (visionRequest env bytes mimeType (question.getD "")),
          (w.logged (.analyzeImage imagePath)).logged
            (.generateContent .visionModel
              (visionRequest env bytes mimeType (question.getD ""))))
      | none =>
        (.error ("ENOENT: no such file or directory, open " ++ imagePath),
          w.logged (.analyzeImage imagePath)) := by
  simp only [analyzeImage, run_bind, run_logCall, attempt, readFileSync, World.logged, raise]
  cases hl : w.fs.lookup imagePath with
  | none => simp
  | some bytes =>
    simp only [run_generate, World.logged]
    cases env.generateContent .visionModel (visionRequest env bytes mimeType (question.getD "")) <;>
      rfl

theorem readPDF_run (env : Env) (filePath : String) (w : World) :
    readPDF env filePath w = (.ok (pdfText env w.fs filePath), w.logged (.readPDF filePath)) := by
  simp only [readPDF, run_bind, run_logCall, attempt, readFileSync, World.logged, pdfText,
    liftExcept]
  cases hl : w.fs.lookup filePath with
  | none => simp [run_pure]
  | some bytes => cases hp : env.pdf bytes <;> simp [run_pure, hp]

theorem scrapeWebsite_run (env : Env) (url : String) (w : World) :
    scrapeWebsite env url w = (.ok (scrapedText env url), w.logged (.scrapeWebsite url)) := by
  simp only [scrapeWebsite, run_bind, run_logCall, attempt, World.logged, scrapedText, liftExcept]
  cases hp : env.axiosGet url <;> simp [run_pure, hp]

theorem objectKeys_mapSet {β : Type} (k : String) (v : β) (object : List (String × β))
    (h : k ∉ objectKeys object) : objectKeys (mapSet k v object) = objectKeys object ++ [k] := by
  induction object with
  | nil => rfl
  | cons entry rest ih =>
    obtain ⟨k', v'⟩ := entry
    simp only [objectKeys, List.map_cons, List.mem_cons, not_or] at h
    have hne : ¬ k' = k := fun hk => h.1 hk.symm
    simp only [mapSet, hne, if_false, objectKeys, List.map_cons, List.cons_append]
    exact congrArg _ (ih h.2)

theorem collectImages_cons (env : Env) (key : String) (img : TrainedImage)
    (rest : List (String × TrainedImage)) (imageData : List (String × ImageDatum)) (w : World) :
    collectImages env ((key, img) :: rest) imageData w =
      if fileExists w.fs img.path then
        match analyzeImage env img.path img.mimeType none w with
        | (.ok content, w') =>
          collectImages env rest
            (mapSet key { description := img.description, content := content } imageData) w'
        | (.error e, w') => (.error e, w')
      else collectImages env rest imageData w := by
  simp only [collectImages, run_bind, existsSync]
  by_cases h : fileExists w.fs img.path = true
  · simp only [h, if_true, run_bind]
    rcases analyzeImage env img.path img.mimeType none w with ⟨r, w'⟩
    cases r <;> rfl
  · simp only [h, if_false, Bool.false_eq_true]

theorem collectDocuments_cons (env : Env) (key : String) (doc : TrainedDocument)
    (rest : List (String × TrainedDocument)) (documentData : List (String × DocumentDatum))
    (w : World) :
    collectDocuments env ((key, doc) :: rest) documentData w =
      if fileExists w.fs doc.path then
        collectDocuments env rest
          (mapSet key { type := doc.type, content := pdfText env w.fs doc.path } documentData)
          (w.logged (.readPDF doc.path))
      else collectDocuments env rest documentData w := by
  simp only [collectDocuments, run_bind, existsSync]
  by_cases h : fileExists w.fs doc.path = true
  · simp only [h, if_true, run_bind, readPDF_run]
  · simp only [h, if_false, Bool.false_eq_true]

/-- With a vision model that answers, the first loop of `prepareAllData` ends
with one entry for each image whose file is present, in the order of the table. -/
theorem collectImages_ok (env : Env)
    (hvision : ∀ request, ∃ text, env.generateContent .visionModel request = .ok text)
    (images : List (String × TrainedImage)) :
    ∀ (imageData : List (String × ImageDatum)) (w : World),
      (images.map Prod.fst).Nodup →
      (∀ k ∈ images.map Prod.fst, k ∉ objectKeys imageData) →
      ∃ result w', collectImages env images imageData w = (.ok result, w') ∧ w'.fs = w.fs ∧
        objectKeys result = objectKeys imageData ++
          (images.filter (fun entry => fileExists w.fs entry.2.path)).map Prod.fst := by
  induction images with
  | nil =>
    intro imageData w _ _
    exact ⟨imageData, w, rfl, rfl, by simp⟩
  | cons entry rest ih =>
    intro imageData w hnd hnew
    obtain ⟨key, img⟩ := entry
    simp only [List.map_cons, List.nodup_cons] at hnd
    have hkey : key ∉ objectKeys imageData := hnew key (by simp)
    rw [collectImages_cons]
    by_cases h : fileExists w.fs img.path = true
    · obtain ⟨bytes, hl⟩ := lookup_of_fileExists w.fs img.path h
      obtain ⟨text, ht⟩ := hvision (visionRequest env bytes img.mimeType ((none : Option String).getD ""))
      simp only [h, if_true, analyzeImage_run, hl, ht]
      obtain ⟨result, w', hrun, hfs, hkeys⟩ := ih
        (mapSet key { description := img.description, content := text } imageData)
        ((w.logged (.analyzeImage img.path)).logged
          (.generateContent .visionModel
            (visionRequest env bytes img.mimeType ((none : Option String).getD ""))))
        hnd.2
        (by
          intro k hk
          rw [objectKeys_mapSet key _ imageData hkey]
          simp only [List.mem_append, List.mem_singleton, not_or]
          refine ⟨hnew k (by simp only [List.map_cons, List.mem_cons]; exact Or.inr hk), ?_⟩
          rintro rfl
          exact hnd.1 hk)
      refine ⟨result, w', hrun, hfs, ?_⟩
      rw [hkeys, objectKeys_mapSet key _ imageData hkey]
      simp [List.filter_cons, h, World.logged]
    · simp only [h, if_false, Bool.false_eq_true]
      obtain ⟨result, w', hrun, hfs, hkeys⟩ := ih imageData w hnd.2
        (fun k hk => hnew k (by simp only [List.map_cons, List.mem_cons]; exact Or.inr hk))
      refine ⟨result, w', hrun, hfs, ?_⟩
      rw [hkeys]
      simp [List.filter_cons, h]

/-- The second loop of `prepareAllData` always ends, with one entry for each
document whose file is present, in the order of the table. -/
theorem collectDocuments_ok (env : Env) (documents : List (String × TrainedDocument)) :
    ∀ (documentData : List (String × DocumentDatum)) (w : World),
      (documents.map Prod.fst).Nodup →
      (∀ k ∈ documents.map Prod.fst, k ∉ objectKeys documentData) →
      ∃ result w', collectDocuments env documents documentData w = (.ok result, w') ∧
        w'.fs = w.fs ∧
        objectKeys result = objectKeys documentData ++
          (documents.filter (fun entry => fileExists w.fs entry.2.path)).map Prod.fst := by
  induction documents with
  | nil =>
    intro documentData w _ _
    exact ⟨documentData, w, rfl, rfl, by simp⟩
  | cons entry rest ih =>
    intro documentData w hnd hnew
    obtain ⟨key, doc⟩ := entry
    simp only [List.map_cons, List.nodup_cons] at hnd
    have hkey : key ∉ objectKeys documentData := hnew key (by simp)
    rw [collectDocuments_cons]
    by_cases h : fileExists w.fs doc.path = true
    · simp only [h, if_true]
      obtain ⟨result, w', hrun, hfs, hkeys⟩ := ih
        (mapSet key { type := doc.type, content := pdfText env w.fs doc.path } documentData)
        (w.logged (.readPDF doc.path))
        hnd.2
        (by
          intro k hk
          rw [objectKeys_mapSet key _ documentData hkey]
          simp only [List.mem_append, List.mem_singleton, not_or]
          refine ⟨hnew k (by simp only [List.map_cons, List.mem_cons]; exact Or.inr hk), ?_⟩
          rintro rfl
          exact hnd.1 hk)
      refine ⟨result, w', hrun, hfs, ?_⟩
      rw [hkeys, objectKeys_mapSet key _ documentData hkey]
      simp [List.filter_cons, h, World.logged]
    · simp only [h, if_false, Bool.false_eq_true]
      obtain ⟨result, w', hrun, hfs, hkeys⟩ := ih documentData w hnd.2
        (fun k hk => hnew k (by simp only [List.map_cons, List.mem_cons]; exact Or.inr hk))
      refine ⟨result, w', hrun, hfs, ?_⟩
      rw [hkeys]
      simp [List.filter_cons, h]

/-- With a vision model that answers, `prepareAllData` returns, leaves the file
system alone, and has one key for each image and document whose file is present. -/
theorem prepareAllData_ok (env : Env)
    (hvision : ∀ request, ∃ text, env.generateContent .visionModel request = .ok text)
    (w : World) :
    ∃ allData w', prepareAllData env w = (.ok allData, w') ∧ w'.fs = w.fs ∧
      objectKeys allData.imageData = presentImageKeys env w.fs ∧
      objectKeys allData.documentData = presentDocumentKeys env w.fs ∧
      allData.websiteData = scrapedText env trainedWebsite := by
  obtain ⟨imageData, w1, h1, hfs1, hk1⟩ := collectImages_ok env hvision (trainedImages env) []
    (w.logged .prepareAllData) (by simp [trainedImages]) (by simp [objectKeys])
  obtain ⟨documentData, w2, h2, hfs2, hk2⟩ := collectDocuments_ok env (trainedDocuments env) []
    w1 (by simp [trainedDocuments]) (by simp [objectKeys])
  refine ⟨{ imageData := imageData, documentData := documentData,
            websiteData := scrapedText env trainedWebsite },
    w2.logged (.scrapeWebsite trainedWebsite), ?_, ?_, ?_, ?_, rfl⟩
  · simp only [prepareAllData, run_bind, run_logCall, attempt, h1, h2, scrapeWebsite_run, run_pure]
  · simp only [World.logged, hfs2, hfs1]
  · rw [hk1]
    simp [presentImageKeys, objectKeys, World.logged]
  · rw [hk2, hfs1]
    simp [presentDocumentKeys, objectKeys, World.logged]

/-- An error of the first loop is the error of `prepareAllData`. -/
theorem prepareAllData_error (env : Env) (w w1 : World) (e : String)
    (h : collectImages env (trainedImages env) [] (w.logged .prepareAllData) = (.error e, w1)) :
    prepareAllData env w = (.error e, w1) := by
  simp only [prepareAllData, run_bind, run_logCall, attempt, h, raise]

/-! ## Lemmas on `/ask` and `/ask-upload` -/

/-- The handler `/ask` on a question that is present and not empty, step by step. -/
theorem ask_run (env : Env) (question : String) (w : World) (hq : question ≠ "") :
    ask env { question := some question } w =
      match prepareAllData env w with
      | (.error e, w') => { response := processingError e, world := w' }
      | (.ok allData, w') =>
        match env.generateContent .textModel (askRequest env question allData) with
        | .ok answer =>
          { response := { status := 200, body := .ask question answer (askSources allData) },
            world := w'.logged (.generateContent .textModel (askRequest env question allData)) }
        | .error e =>
          { response := processingError e,
            world := w'.logged
              (.generateContent .textModel (askRequest env question allData)) } := by
  simp only [ask, respond, askTry, Option.getD_some, hq, if_false, run_bind]
  rcases prepareAllData env w with ⟨r, w'⟩
  cases r with
  | error e => rfl
  | ok allData =>
    simp only [run_generate]
    cases env.generateContent .textModel (askRequest env question allData) <;> rfl

/-- The handler `/ask-upload` on a stored upload, step by step. -/
theorem askUploadTry_run (env : Env) (req : AskUploadRequest) (file : StoredFile) (w : World)
    (bytes : Bytes) (hl : w.fs.lookup file.path = some bytes) :
    askUploadTry env req file w =
      if startsWith file.mimetype "image/" then
        match env.generateContent .visionModel
            (visionRequest env bytes file.mimetype (req.question.getD "")) with
        | .ok content =>
          (.ok { status := 200, body := .askUpload req.question (some content) },
            { fs := removeFile w.fs file.path,
              trace := w.trace ++ [.analyzeImage file.path, .generateContent .visionModel
                (visionRequest env bytes file.mimetype (req.question.getD ""))] })
        | .error e =>
          (.error e,
            { fs := w.fs,
              trace := w.trace ++ [.analyzeImage file.path, .generateContent .visionModel
                (visionRequest env bytes file.mimetype (req.question.getD ""))] })
      else if file.mimetype = "application/pdf" then
        (.ok { status := 200, body := .askUpload req.question (pdfText env w.fs file.path) },
          { fs := removeFile w.fs file.path, trace := w.trace ++ [.readPDF file.path] })
      else
        (.ok { status := 200, body := .askUpload req.question (some "") },
          { fs := removeFile w.fs file.path, trace := w.trace }) := by
  have hx := fileExists_of_lookup w.fs file.path bytes hl
  simp only [askUploadTry, run_bind]
  by_cases hi : startsWith file.mimetype "image/" = true
  · simp only [hi, if_true, run_bind, run_map, analyzeImage_run, hl]
    cases env.generateContent .visionModel
        (visionRequest env bytes file.mimetype (req.question.getD "")) with
    | error e => simp [World.logged]
    | ok content => simp [World.logged, unlinkSync, hx, run_pure]
  · simp only [hi, if_false, Bool.false_eq_true]
    by_cases hp : file.mimetype = "application/pdf"
    · simp only [hp, if_true, run_bind, readPDF_run, World.logged, unlinkSync, hx, run_pure]
    · simp only [hp, if_false, run_bind, World.logged, unlinkSync, hx, run_pure, if_true]

/-! ## Lemmas on failures in the context builder -/

theorem mapSet_new {β : Type} (k : String) (v : β) (object : List (String × β))
    (h : k ∉ objectKeys object) : mapSet k v object = object ++ [(k, v)] := by
  induction object with
  | nil => rfl
  | cons entry rest ih =>
    obtain ⟨k', v'⟩ := entry
    simp only [objectKeys, List.map_cons, List.mem_cons, not_or] at h
    have hne : ¬ k' = k := fun hk => h.1 hk.symm
    simp only [mapSet, hne, if_false, List.cons_append]
    exact congrArg _ (ih h.2)

/-- The first loop of `prepareAllData` leaves the file system alone. -/
theorem collectImages_fs (env : Env) (images : List (String × TrainedImage)) :
    ∀ (imageData : List (String × ImageDatum)) (w : World),
      (collectImages env images imageData w).2.fs = w.fs := by
  induction images with
  | nil => intro imageData w; rfl
  | cons entry rest ih =>
    intro imageData w
    obtain ⟨key, img⟩ := entry
    rw [collectImages_cons]
    by_cases h : fileExists w.fs img.path = true
    · simp only [h, if_true, analyzeImage_run]
      cases hl : w.fs.lookup img.path with
      | none => rfl
      | some bytes =>
        simp only
        cases hg : env.generateContent .visionModel
            (visionRequest env bytes img.mimeType ((none : Option String).getD "")) with
        | error e => rfl
        | ok text =>
          simp only
          rw [ih]
          rfl
    · simp only [h, if_false, Bool.false_eq_true]
      exact ih imageData w

/-- The first loop of `prepareAllData` fails with the error of the first image
analysis that fails. -/
theorem collectImages_first_error (env : Env) (e : String) (key : String) (img : TrainedImage)
    (post : List (String × TrainedImage)) (pre : List (String × TrainedImage)) :
    ∀ (imageData : List (String × ImageDatum)) (w : World) (bytes : Bytes),
      (∀ entry ∈ pre, ImageAnalysed env w.fs entry.2) →
      w.fs.lookup img.path = some bytes →
      env.generateContent .visionModel (visionRequest env bytes img.mimeType "") = .error e →
      ∃ w', collectImages env (pre ++ (key, img) :: post) imageData w = (.error e, w') := by
  induction pre with
  | nil =>
    intro imageData w bytes _ hl hfail
    have hx := fileExists_of_lookup w.fs img.path bytes hl
    have hfail' : env.generateContent .visionModel
        (visionRequest env bytes img.mimeType ((none : Option String).getD "")) = .error e := hfail
    rw [List.nil_append, collectImages_cons]
    simp only [hx, if_true, analyzeImage_run, hl, hfail']
    exact ⟨_, rfl⟩
  | cons entry rest ih =>
    intro imageData w bytes hpre hl hfail
    obtain ⟨k, first⟩ := entry
    rw [List.cons_append, collectImages_cons]
    by_cases h : fileExists w.fs first.path = true
    · obtain ⟨b, hb⟩ := lookup_of_fileExists w.fs first.path h
      obtain ⟨text, ht⟩ := hpre (k, first) (List.mem_cons_self _ _) b hb
      have ht' : env.generateContent .visionModel
          (visionRequest env b first.mimeType ((none : Option String).getD "")) = .ok text := ht
      simp only [h, if_true, analyzeImage_run, hb, ht']
      exact ih _ _ bytes (fun entry hentry => hpre entry (List.mem_cons_of_mem _ hentry)) hl hfail
    · simp only [h, if_false, Bool.false_eq_true]
      exact ih imageData w bytes
        (fun entry hentry => hpre entry (List.mem_cons_of_mem _ hentry)) hl hfail

/-- The first loop of `prepareAllData` ends when the vision model answers for
the images that are present. -/
theorem collectImages_analysed (env : Env) (images : List (String × TrainedImage)) :
    ∀ (imageData : List (String × ImageDatum)) (w : World),
      (∀ entry ∈ images, ImageAnalysed env w.fs entry.2) →
      ∃ result w', collectImages env images imageData w = (.ok result, w') := by
  induction images with
  | nil => intro imageData w _; exact ⟨imageData, w, rfl⟩
  | cons entry rest ih =>
    intro imageData w hall
    obtain ⟨k, first⟩ := entry
    rw [collectImages_cons]
    by_cases h : fileExists w.fs first.path = true
    · obtain ⟨b, hb⟩ := lookup_of_fileExists w.fs first.path h
      obtain ⟨text, ht⟩ := hall (k, first) (List.mem_cons_self _ _) b hb
      have ht' : env.generateContent .visionModel
          (visionRequest env b first.mimeType ((none : Option String).getD "")) = .ok text := ht
      simp only [h, if_true, analyzeImage_run, hb, ht']
      exact ih _ _ (fun entry hentry => hall entry (List.mem_cons_of_mem _ hentry))
    · simp only [h, if_false, Bool.false_eq_true]
      exact ih imageData w (fun entry hentry => hall entry (List.mem_cons_of_mem _ hentry))

/-- The second loop of `prepareAllData` appends, for each document whose file
is present, what `readPDF` returned for it. -/
theorem collectDocuments_exact (env : Env) (documents : List (String × TrainedDocument)) :
    ∀ (documentData : List (String × DocumentDatum)) (w : World),
      (documents.map Prod.fst).Nodup →
      (∀ k ∈ documents.map Prod.fst, k ∉ objectKeys documentData) →
      ∃ w', collectDocuments env documents documentData w =
          (.ok (documentData ++
            (documents.filter (fun entry => fileExists w.fs entry.2.path)).map
              (fun entry => (entry.1,
                { type := entry.2.type, content := pdfText env w.fs entry.2.path }))), w') ∧
        w'.fs = w.fs := by
  induction documents with
  | nil =>
    intro documentData w _ _
    exact ⟨w, by simp [collectDocuments, run_pure], rfl⟩
  | cons entry rest ih =>
    intro documentData w hnd hnew
    obtain ⟨key, doc⟩ := entry
    simp only [List.map_cons, List.nodup_cons] at hnd
    have hkey : key ∉ objectKeys documentData := hnew key (by simp)
    rw [collectDocuments_cons]
    by_cases h : fileExists w.fs doc.path = true
    · simp only [h, if_true]
      rw [mapSet_new key _ documentData hkey]
      obtain ⟨w', hrun, hfs⟩ := ih
        (documentData ++ [(key, { type := doc.type, content := pdfText env w.fs doc.path })])
        (w.logged (.readPDF doc.path))
        hnd.2
        (by
          intro k hk
          simp only [objectKeys, List.map_append, List.map_cons, List.map_nil, List.mem_append,
            List.mem_singleton, not_or]
          refine ⟨hnew k (by simp only [List.map_cons, List.mem_cons]; exact Or.inr hk), ?_⟩
          rintro rfl
          exact hnd.1 hk)
      refine ⟨w', ?_, hfs⟩
      rw [hrun]
      simp [List.filter_cons, h, World.logged]
    · simp only [h, if_false, Bool.false_eq_true]
      obtain ⟨w', hrun, hfs⟩ := ih documentData w hnd.2
        (fun k hk => hnew k (by simp only [List.map_cons, List.mem_cons]; exact Or.inr hk))
      refine ⟨w', ?_, hfs⟩
      rw [hrun]
      simp [List.filter_cons, h]

/-- What `prepareAllData` returns for the documents and the web site whenever
it returns. -/
theorem prepareAllData_documents (env : Env) (w w' : World) (allData : AllData)
    (h : prepareAllData env w = (.ok allData, w')) :
    allData.documentData = expectedDocumentData env w.fs ∧
    allData.websiteData = scrapedText env trainedWebsite := by
  have hfs := collectImages_fs env (trainedImages env) [] (w.logged .prepareAllData)
  simp only [prepareAllData, run_bind, run_logCall, attempt] at h
  rcases hc : collectImages env (trainedImages env) [] (w.logged .prepareAllData) with ⟨r, w1⟩
  rw [hc] at h hfs
  cases r with
  | error e => simp [raise] at h
  | ok imageData =>
    obtain ⟨w2, hrun, _⟩ := collectDocuments_exact env (trainedDocuments env) [] w1
      (by simp [trainedDocuments]) (by simp [objectKeys])
    simp only [hrun, scrapeWebsite_run, run_pure, Prod.mk.injEq, Except.ok.injEq] at h
    obtain ⟨hdata, _⟩ := h
    subst hdata
    have hfs' : w1.fs = w.fs := hfs
    simp only [List.nil_append, hfs']
    exact ⟨rfl, trivial⟩

/-- The function `prepareAllData` returns when the vision model answers for
the images that are present. -/
theorem prepareAllData_analysed (env : Env) (w : World)
    (hall : ∀ entry ∈ trainedImages env, ImageAnalysed env w.fs entry.2) :
    ∃ allData w', prepareAllData env w = (.ok allData, w') := by
  obtain ⟨imageData, w1, h1⟩ := collectImages_analysed env (trainedImages env) []
    (w.logged .prepareAllData) hall
  obtain ⟨w2, h2, _⟩ := collectDocuments_exact env (trainedDocuments env) [] w1
    (by simp [trainedDocuments]) (by simp [objectKeys])
  refine ⟨{ imageData := imageData,
            documentData := [] ++ ((trainedDocuments env).filter
              (fun entry => fileExists w1.fs entry.2.path)).map
                (fun entry => (entry.1,
                  { type := entry.2.type, content := pdfText env w1.fs entry.2.path })),
            websiteData := scrapedText env trainedWebsite },
    w2.logged (.scrapeWebsite trainedWebsite), ?_⟩
  simp only [prepareAllData, run_bind, run_logCall, attempt, h1, h2, scrapeWebsite_run, run_pure]

/-! ## The resource matcher -/

/-- C1: over a case table that leaves Thai code points alone, every query string
containing one of the admission terms `สมัคร`, `รับเข้า` makes
`findRelevantResources` return a list that holds every entry of
`kkuResources.admission`; every string query returns a list; and whatever the
query, no two entries of a returned list have the same url. -/
theorem admission_query_yields_admission_entries (lowerAt : LowerTable)
    (hThai : ThaiCaseless lowerAt) :
    (∀ query : String, includes query "สมัคร" = true ∨ includes query "รับเข้า" = true →
      ∃ result, findRelevantResources lowerAt (.string query) = .ok result ∧
        ∀ r ∈ kkuResources.admission, r ∈ result) ∧
    (∀ query : String, ∃ result, findRelevantResources lowerAt (.string query) = .ok result) ∧
    (∀ (query : JsValue) (result : List Resource),
      findRelevantResources lowerAt query = .ok result → (result.map Resource.url).Nodup) := by
  refine ⟨?_, ?_, ?_⟩
  · intro query hq
    refine ⟨_, findRelevantResources_string lowerAt query, ?_⟩
    have ha : admissionTriggered lowerAt query = true := by
      unfold admissionTriggered
      rcases hq with h | h
      · rw [includes_toLowerCase lowerAt hThai query _ (by decide) h, Bool.true_or]
      · rw [includes_toLowerCase lowerAt hThai query _ (by decide) h, Bool.or_true]
    intro r hr
    unfold matchingEntries
    rw [ha]
    exact List.mem_append_left _ hr
  · intro query
    exact ⟨_, findRelevantResources_string lowerAt query⟩
  · intro query result h
    cases query with
    | string s =>
      rw [findRelevantResources_string] at h
      cases h
      exact matchingEntries_nodup lowerAt s
    | undefined => cases h; exact List.nodup_nil
    | null => cases h; exact List.nodup_nil
    | boolean b => cases b <;> cases h; exact List.nodup_nil
    | number n =>
      unfold findRelevantResources at h
      split at h
      · cases h; exact List.nodup_nil
      · cases h
    | object => cases h

/-- Witness of C1: the ASCII case table and the query `อยากสมัครเรียน`. -/
theorem admission_query_yields_admission_entries_witness :
    ThaiCaseless asciiLower ∧
    includes "อยากสมัครเรียน" "สมัคร" = true ∧
    ∃ result, findRelevantResources asciiLower (.string "อยากสมัครเรียน") = .ok result ∧
      ∀ r ∈ kkuResources.admission, r ∈ result :=
  ⟨asciiLower_thaiCaseless, by decide,
    (admission_query_yields_admission_entries asciiLower asciiLower_thaiCaseless).1
      "อยากสมัครเรียน" (Or.inl (by decide))⟩

/-- C2: a falsy query, and a string query whose lower-cased form contains none
of the six trigger terms, make `findRelevantResources` return the empty list. -/
theorem findRelevantResources_empty (lowerAt : LowerTable) (query : JsValue)
    (h : query.truthy = false ∨
      ∃ s, query = .string s ∧
        ∀ term ∈ triggerTerms, includes (toLowerCase lowerAt s) term = false) :
    findRelevantResources lowerAt query = .ok [] := by
  rcases h with h | ⟨s, rfl, h⟩
  · unfold findRelevantResources
    rw [h]
    rfl
  · rw [findRelevantResources_string]
    unfold matchingEntries admissionTriggered tuitionTriggered curriculumTriggered
    rw [h "สมัคร" (by decide), h "รับเข้า" (by decide), h "ค่าเทอม" (by decide),
      h "ค่าธรรมเนียม" (by decide), h "หลักสูตร" (by decide), h "วิชา" (by decide)]
    rfl

/-- Witness of C2: the empty string, a missing value, and a greeting that holds
no trigger term. -/
theorem findRelevantResources_empty_witness :
    findRelevantResources asciiLower (.string "") = .ok [] ∧
    findRelevantResources asciiLower .undefined = .ok [] ∧
    findRelevantResources asciiLower (.string "Hello สวัสดี") = .ok [] :=
  ⟨findRelevantResources_empty asciiLower (.string "") (Or.inl (by decide)),
   findRelevantResources_empty asciiLower .undefined (Or.inl (by decide)),
   findRelevantResources_empty asciiLower (.string "Hello สวัสดี")
     (Or.inr ⟨"Hello สวัสดี", rfl, by decide⟩)⟩

/-- C10: for every string query, empty or not, `findRelevantResources` returns
the deduplication by url of the entries of the matching categories concatenated in
the order admission, tuition, curriculum; the four urls of `kkuResources` are
pairwise distinct and the deduplication leaves that concatenation as it is; the
result has at most four entries and none of a category that did not match; and
equal queries give equal results. -/
theorem findRelevantResources_is_matching_concatenation (lowerAt : LowerTable)
    (query : String) :
    findRelevantResources lowerAt (.string query) =
      .ok (dedupByUrl (matchingEntries lowerAt kkuResources query)) ∧
    ((kkuResources.admission ++ kkuResources.tuition ++ kkuResources.curriculum).map
      Resource.url).Nodup ∧
    dedupByUrl (matchingEntries lowerAt kkuResources query) =
      matchingEntries lowerAt kkuResources query ∧
    (matchingEntries lowerAt kkuResources query).length ≤ 4 ∧
    (admissionTriggered lowerAt query = false →
      ∀ r ∈ kkuResources.admission, r ∉ matchingEntries lowerAt kkuResources query) ∧
    (tuitionTriggered lowerAt query = false →
      ∀ r ∈ kkuResources.tuition, r ∉ matchingEntries lowerAt kkuResources query) ∧
    (curriculumTriggered lowerAt query = false →
      ∀ r ∈ kkuResources.curriculum, r ∉ matchingEntries lowerAt kkuResources query) ∧
    (∀ other : String, other = query →
      findRelevantResources lowerAt (.string other) =
        findRelevantResources lowerAt (.string query)) := by
  have hd : dedupByUrl (matchingEntries lowerAt kkuResources query) =
      matchingEntries lowerAt kkuResources query := by
    unfold matchingEntries
    cases admissionTriggered lowerAt query <;> cases tuitionTriggered lowerAt query <;>
      cases curriculumTriggered lowerAt query <;> rfl
  refine ⟨?_, by decide, hd, ?_, ?_, ?_, ?_, ?_⟩
  · rw [hd]
    exact findRelevantResources_string lowerAt query
  · unfold matchingEntries
    cases admissionTriggered lowerAt query <;> cases tuitionTriggered lowerAt query <;>
      cases curriculumTriggered lowerAt query <;> decide
  · intro ha
    unfold matchingEntries
    rw [ha]
    cases tuitionTriggered lowerAt query <;> cases curriculumTriggered lowerAt query <;> decide
  · intro hb
    unfold matchingEntries
    rw [hb]
    cases admissionTriggered lowerAt query <;> cases curriculumTriggered lowerAt query <;> decide
  · intro hc
    unfold matchingEntries
    rw [hc]
    cases admissionTriggered lowerAt query <;> cases tuitionTriggered lowerAt query <;> decide
  · intro other ho
    rw [ho]

/-! ## The upload filter and the file extractor -/

/-- C3 (the code at the failing input): a PNG posted to `/chat` without a
message is answered with 200, and the file multer stored under `uploads/` is
still in the file system afterwards, because the image branch of
`processUploadedFile` returns before `fs.unlinkSync`. -/
theorem chat_png_leaves_upload :
    fileFilter { originalname := "photo.png", mimetype := "image/png", content := pngBytes } =
      .ok true ∧
    (chat sampleEnv "f3a9" pngRequest emptyWorld).response =
      { status := 200, body := .chat "คำตอบ" } ∧
    (chat sampleEnv "f3a9" pngRequest emptyWorld).world.fs = [("uploads/f3a9", pngBytes)] ∧
    fileExists (chat sampleEnv "f3a9" pngRequest emptyWorld).world.fs "uploads/f3a9" = true := by
  refine ⟨?_, ?_, ?_, ?_⟩ <;> rfl

/-- For every accepted image the stored upload outlives the request. -/
theorem chat_image_keeps_upload (env : Env) (tmpName : String) (message : Option String)
    (f : IncomingFile) (w : World) (ha : f.mimetype ∈ allowedTypes)
    (hs : f.content.length ≤ fileSizeLimit) (hi : startsWith f.mimetype "image/" = true) :
    (chat env tmpName { message := message, file := some f } w).world.fs.lookup
      ("uploads/" ++ tmpName) = some f.content := by
  rw [chat_run]
  simp only [upload_accept tmpName f w ha hs, processIfPresent_some]
  rw [processUploadedFile_image env _ _ f.content hi (lookup_stored w tmpName f.content)]
  simp only
  cases env.generateContent .model _ <;> exact lookup_stored w tmpName f.content

/-- For every accepted file that is not an image and whose text is extracted,
the stored upload is gone after the request. -/
theorem chat_text_removes_upload (env : Env) (tmpName : String) (message : Option String)
    (f : IncomingFile) (w : World) (text : String) (ha : f.mimetype ∈ allowedTypes)
    (hs : f.content.length ≤ fileSizeLimit) (hi : startsWith f.mimetype "image/" = false)
    (hx : extractedText env f.mimetype f.content = .ok text) :
    fileExists (chat env tmpName { message := message, file := some f } w).world.fs
      ("uploads/" ++ tmpName) = false := by
  rw [chat_run]
  simp only [upload_accept tmpName f w ha hs, processIfPresent_some]
  rw [processUploadedFile_text env _ _ f.content hi (lookup_stored w tmpName f.content)]
  simp only [hx]
  cases env.generateContent .model _ <;> exact fileExists_removeFile _ _

/-- C4: the `fileFilter` accepts a file exactly when its declared type is one of
the six allowed types and rejects every other with the same error; two files
with the same declared type get the same decision whatever their content; and
`/chat` answers a rejected upload with 400 and the error of the filter, leaving
the file system and the call trace as they were, so neither
`processUploadedFile` nor the model is called.  The same middleware guards
`/ask-upload`, which does not reach its extraction either. -/
theorem fileFilter_accepts_exactly_allowed :
    (∀ file : IncomingFile, fileFilter file = .ok true ↔
      (file.mimetype = "image/jpeg" ∨ file.mimetype = "image/png" ∨
       file.mimetype = "image/webp" ∨ file.mimetype = "application/pdf" ∨
       file.mimetype =
         "application/vnd.openxmlformats-officedocument.wordprocessingml.document" ∨
       file.mimetype = "text/plain")) ∧
    (∀ file : IncomingFile, fileFilter file ≠ .ok true →
      fileFilter file = .error "ประเภทไฟล์ไม่รองรับ") ∧
    (∀ f g : IncomingFile, f.mimetype = g.mimetype → fileFilter f = fileFilter g) ∧
    (∀ (env : Env) (tmpName : String) (req : ChatRequest) (w : World) (f : IncomingFile),
      req.file = some f → fileFilter f ≠ .ok true →
      chat env tmpName req w =
        { response := { status := 400,
                        body := .error "ข้อผิดพลาดในการอัปโหลดไฟล์" (some "ประเภทไฟล์ไม่รองรับ") },
          world := w }) ∧
    (∀ (env : Env) (tmpName : String) (req : AskUploadRequest) (w : World) (f : IncomingFile),
      req.file = some f → fileFilter f ≠ .ok true →
      (askUpload env tmpName req w).world = w) := by
  have hiff : ∀ file : IncomingFile, fileFilter file = .ok true ↔ file.mimetype ∈ allowedTypes := by
    intro file
    unfold fileFilter
    by_cases h : file.mimetype ∈ allowedTypes <;> simp [h]
  refine ⟨?_, ?_, ?_, ?_, ?_⟩
  · intro file
    rw [hiff]
    simp [allowedTypes]
  · intro file h
    have hn : file.mimetype ∉ allowedTypes := fun hm => h ((hiff file).mpr hm)
    unfold fileFilter
    simp [hn]
  · intro f g h
    unfold fileFilter
    rw [h]
  · intro env tmpName req w f hf h
    have hn : f.mimetype ∉ allowedTypes := fun hm => h ((hiff f).mpr hm)
    rw [chat_run, hf, upload_reject tmpName f w hn]
    rfl
  · intro env tmpName req w f hf h
    have hn : f.mimetype ∉ allowedTypes := fun hm => h ((hiff f).mpr hm)
    unfold askUpload
    rw [hf, upload_reject tmpName f w hn]

/-- Witness of C4: an executable posted to `/chat` is answered with 400 before
anything is stored or called. -/
theorem fileFilter_accepts_exactly_allowed_witness :
    chat sampleEnv "f3a9"
        { message := some "เปิดไฟล์นี้",
          file := some { originalname := "setup.exe", mimetype := "application/x-msdownload",
                         content := [77, 90] } } emptyWorld =
      { response := { status := 400,
                      body := .error "ข้อผิดพลาดในการอัปโหลดไฟล์" (some "ประเภทไฟล์ไม่รองรับ") },
        world := emptyWorld } :=
  fileFilter_accepts_exactly_allowed.2.2.2.1 sampleEnv "f3a9" _ emptyWorld
    { originalname := "setup.exe", mimetype := "application/x-msdownload", content := [77, 90] }
    rfl (by simp [fileFilter, allowedTypes])

/-! ## The reply of `/chat` -/

theorem tuitionLine_in_reply (lowerAt : LowerTable) (hThai : ThaiCaseless lowerAt)
    (message : String) (text : String) (hm : includes message "ค่าเทอม" = true) :
    ∃ pre post, appendResources text (matchingEntries lowerAt kkuResources message) =
        pre ++ "\n" ++ tuitionLine ++ post ∧
      (post = "" ∨ startsWith post "\n" = true) := by
  have ht : tuitionTriggered lowerAt message = true := by
    unfold tuitionTriggered
    rw [includes_toLowerCase lowerAt hThai message _ (by decide) hm, Bool.true_or]
  unfold matchingEntries
  rw [ht]
  cases admissionTriggered lowerAt message <;> cases curriculumTriggered lowerAt message
  · exact ⟨text ++ "\n\nแหล่งข้อมูลเพิ่มเติม:", "", by
      simp [appendResources, kkuResources, join, resourceLine, resourcesHeading, tuitionLine,
        String.append_assoc], Or.inl rfl⟩
  · exact ⟨text ++ "\n\nแหล่งข้อมูลเพิ่มเติม:",
      "\n" ++ resourceLine { title := "หลักสูตรวิศวกรรมศาสตร์",
                              url := "https://www.en.kku.ac.th/web/curriculum" }, by
      simp [appendResources, kkuResources, join, resourceLine, resourcesHeading, tuitionLine,
        String.append_assoc], Or.inr (by decide)⟩
  · exact ⟨text ++ resourcesHeading ++
        resourceLine { title := "ระบบรับสมัครนักศึกษา", url := "https://www.admissions.kku.ac.th" } ++
        "\n" ++
        resourceLine { title := "เว็บไซต์คณะวิศวกรรมศาสตร์", url := "https://www.en.kku.ac.th" },
      "", by
      simp [appendResources, kkuResources, join, resourceLine, resourcesHeading, tuitionLine,
        String.append_assoc], Or.inl rfl⟩
  · exact ⟨text ++ resourcesHeading ++
        resourceLine { title := "ระบบรับสมัครนักศึกษา", url := "https://www.admissions.kku.ac.th" } ++
        "\n" ++
        resourceLine { title := "เว็บไซต์คณะวิศวกรรมศาสตร์", url := "https://www.en.kku.ac.th" },
      "\n" ++ resourceLine { title := "หลักสูตรวิศวกรรมศาสตร์",
                              url := "https://www.en.kku.ac.th/web/curriculum" }, by
      simp [appendResources, kkuResources, join, resourceLine, resourcesHeading, tuitionLine,
        String.append_assoc], Or.inr (by decide)⟩

/-- C5: when the model answers `text` and `/chat` answers 200 (the upload, if
any, was accepted and extracted), the response text is `text` itself if
`findRelevantResources` finds nothing for the message, and otherwise `text`
followed by the heading `แหล่งข้อมูลเพิ่มเติม:` and the found entries rendered as
`- [title](url)`, one per line; a request without a file is always answered
200; and over a case table that leaves Thai alone, a message containing
`ค่าเทอม` gets a response text that has the tuition link as a line of its own. -/
theorem chat_response_text (env : Env) (tmpName : String) (req : ChatRequest) (w : World)
    (text : String) (hreply : ∀ request, env.generateContent .model request = .ok text) :
    ∃ found, findRelevantResources env.lowerAt (.string (req.message.getD "")) = .ok found ∧
      (req.file = none → (chat env tmpName req w).response.status = 200) ∧
      ((chat env tmpName req w).response.status = 200 →
        (chat env tmpName req w).response.body =
          .chat (if found = [] then text
            else text ++ "\n\nแหล่งข้อมูลเพิ่มเติม:\n" ++
              join "\n" (found.map (fun r => "- [" ++ r.title ++ "](" ++ r.url ++ ")"))) ∧
        (ThaiCaseless env.lowerAt → includes (req.message.getD "") "ค่าเทอม" = true →
          ∃ reply pre post, (chat env tmpName req w).response.body = .chat reply ∧
            reply = pre ++ "\n" ++
              "- [ค่าธรรมเนียมการศึกษาปริญญาตรี](https://www.en.kku.ac.th/web/tuition-fees)" ++ post ∧
            (post = "" ∨ startsWith post "\n" = true))) := by
  refine ⟨_, findRelevantResources_string env.lowerAt _, ?_, ?_⟩
  · intro hf
    rw [chat_run, hf, upload_none]
    simp only [processIfPresent_none, hreply]
  · have hbody : (chat env tmpName req w).response.status = 200 →
        (chat env tmpName req w).response.body =
          .chat (appendResources text
            (matchingEntries env.lowerAt kkuResources (req.message.getD ""))) := by
      rw [chat_run]
      rcases upload tmpName req.file w with ⟨r, w1⟩
      cases r with
      | error err => intro h; simp [uploadError] at h
      | ok file =>
        simp only
        rcases processIfPresent env file w1 with ⟨r2, w2⟩
        cases r2 with
        | error e => intro h; simp [processingError] at h
        | ok fileContent => simp only [hreply]; intro _; trivial
    intro hs
    refine ⟨?_, ?_⟩
    · rw [hbody hs]
      unfold appendResources
      cases matchingEntries env.lowerAt kkuResources (req.message.getD "") with
      | nil => simp
      | cons r rs => simp [resourcesHeading, resourceLine]; rfl
    · intro hThai hm
      obtain ⟨pre, post, heq, hpost⟩ :=
        tuitionLine_in_reply env.lowerAt hThai (req.message.getD "") text hm
      exact ⟨_, pre, post, hbody hs, heq, hpost⟩

/-- Witness of C5: the question about the tuition fee, posted without a file. -/
theorem chat_response_text_witness :
    ∃ found, findRelevantResources sampleEnv.lowerAt
        (.string (tuitionRequest.message.getD "")) = .ok found ∧
      (tuitionRequest.file = none →
        (chat sampleEnv "f3a9" tuitionRequest emptyWorld).response.status = 200) ∧
      ((chat sampleEnv "f3a9" tuitionRequest emptyWorld).response.status = 200 →
        (chat sampleEnv "f3a9" tuitionRequest emptyWorld).response.body =
          .chat (if found = [] then "คำตอบ"
            else "คำตอบ" ++ "\n\nแหล่งข้อมูลเพิ่มเติม:\n" ++
              join "\n" (found.map (fun r => "- [" ++ r.title ++ "](" ++ r.url ++ ")"))) ∧
        (ThaiCaseless sampleEnv.lowerAt →
          includes (tuitionRequest.message.getD "") "ค่าเทอม" = true →
          ∃ reply pre post,
            (chat sampleEnv "f3a9" tuitionRequest emptyWorld).response.body = .chat reply ∧
            reply = pre ++ "\n" ++
              "- [ค่าธรรมเนียมการศึกษาปริญญาตรี](https://www.en.kku.ac.th/web/tuition-fees)" ++ post ∧
            (post = "" ∨ startsWith post "\n" = true))) :=
  chat_response_text sampleEnv "f3a9" tuitionRequest emptyWorld "คำตอบ" (fun _ => rfl)

/-! ## The prompt of `/chat` -/

theorem newCalls_append (w w' : World) (calls : List Call) (h : w'.trace = w.trace ++ calls) :
    newCalls w w' = calls := by
  unfold newCalls
  rw [h]
  simp

theorem mem_calls_after_processing (w w' : World) (file : StoredFile)
    (sent : GenerateRequest) (handle : ModelName) (request : GenerateRequest)
    (ht : w'.trace = w.trace ++ [.processUploadedFile file, .generateContent .model sent])
    (hm : Call.generateContent handle request ∈ newCalls w w') :
    handle = .model ∧ request = sent := by
  rw [newCalls_append w w' _ ht] at hm
  simpa using hm

theorem prompt_shape (userMessage : String) :
    chatPreamble.data <+: (join "\n" (promptParts userMessage)).data ∧
    (if userMessage ≠ "" then userMessage else noMessagePlaceholder).data <:+:
      (join "\n" (promptParts userMessage)).data := by
  constructor
  · exact ⟨_, by simp only [promptParts, join, String.data_append]; rfl⟩
  · refine ⟨(chatPreamble ++ "\n" ++ "กรุณาตอบคำถามต่อไปนี้อย่างถูกต้องและกระชับ:" ++ "\n" ++ "" ++ "\n" ++
        "คำถามหรือข้อความจากผู้ใช้:" ++ "\n").data, ("\n" ++ "" ++ "\n" ++ "คำตอบ:").data, ?_⟩
    simp only [promptParts, join, String.data_append, List.append_assoc]

theorem chatParts_first (userMessage : String) (fileContent : Option FileContent) :
    ∃ first rest, chatParts userMessage fileContent = .text first :: rest ∧
      chatPreamble.data <+: first.data ∧
      (if userMessage ≠ "" then userMessage else noMessagePlaceholder).data <:+: first.data := by
  obtain ⟨hpre, hin⟩ := prompt_shape userMessage
  cases fileContent with
  | none => exact ⟨_, [], rfl, hpre, hin⟩
  | some content =>
    cases content with
    | image data mimeType => exact ⟨_, [.inlineData data mimeType], rfl, hpre, hin⟩
    | text content =>
      refine ⟨join "\n" (promptParts userMessage) ++ (fileTextHeading ++ content), [], rfl, ?_, ?_⟩
      · rw [String.data_append]
        exact hpre.trans (List.prefix_append _ _)
      · rw [String.data_append]
        exact hin.trans (List.prefix_append _ _).isInfix

/-- C9: the prompt of `/chat` begins with the role-setting preamble and
contains the message of the user, or the placeholder when the message is
empty, and so does the first part of the parts built from any file content,
which is a text part.  Without a file the parts are that one text part; with
extracted text they are one text part, the prompt followed by the heading
`เนื้อหาไฟล์ที่อัปโหลด:` and the text; with an image they are the text part and
one `inlineData` part.  Every model call of the handler is made on `model` with
such parts, where the file content is what `processUploadedFile` returned for
the stored upload: for an image its base64 data and its declared type, for
another file the extracted text.  A request without a file makes exactly that
one call. -/
theorem chat_prompt_parts (env : Env) (tmpName : String) (req : ChatRequest) (w : World) :
    chatPreamble.data <+: (join "\n" (promptParts (req.message.getD ""))).data ∧
    (if req.message.getD "" ≠ "" then req.message.getD "" else noMessagePlaceholder).data <:+:
      (join "\n" (promptParts (req.message.getD ""))).data ∧
    (∀ fileContent, ∃ first rest,
      chatParts (req.message.getD "") fileContent = .text first :: rest ∧
      chatPreamble.data <+: first.data ∧
      (if req.message.getD "" ≠ "" then req.message.getD "" else noMessagePlaceholder).data <:+:
        first.data) ∧
    chatParts (req.message.getD "") none =
      [.text (join "\n" (promptParts (req.message.getD "")))] ∧
    (∀ content, chatParts (req.message.getD "") (some (.text content)) =
      [.text (join "\n" (promptParts (req.message.getD "")) ++
        ("\n\nเนื้อหาไฟล์ที่อัปโหลด:\n" ++ content))]) ∧
    (∀ data mimeType, chatParts (req.message.getD "") (some (.image data mimeType)) =
      [.text (join "\n" (promptParts (req.message.getD ""))), .inlineData data mimeType]) ∧
    (∀ handle request,
      Call.generateContent handle request ∈ newCalls w (chat env tmpName req w).world →
      handle = .model ∧
      ∃ fileContent, request = chatRequest (req.message.getD "") fileContent ∧
        (req.file = none → fileContent = none) ∧
        (∀ f, req.file = some f →
          ∃ content, fileContent = some content ∧
            (processUploadedFile env
              { path := "uploads/" ++ tmpName, mimetype := f.mimetype, size := f.content.length }
              (w.stored tmpName f.content)).1 = .ok content ∧
            (startsWith f.mimetype "image/" = true →
              content = .image (env.base64 f.content) f.mimetype) ∧
            (startsWith f.mimetype "image/" = false →
              ∃ text, extractedText env f.mimetype f.content = .ok text ∧
                content = .text text))) ∧
    (req.file = none →
      newCalls w (chat env tmpName req w).world =
        [.generateContent .model (chatRequest (req.message.getD "") none)]) := by
  refine ⟨(prompt_shape _).1, (prompt_shape _).2, chatParts_first _, rfl, fun _ => rfl,
    fun _ _ => rfl, ?_, ?_⟩
  · intro handle request hmem
    rw [chat_run] at hmem
    cases hfile : req.file with
    | none =>
      rw [hfile, upload_none] at hmem
      simp only [processIfPresent_none] at hmem
      have hcalls : ∀ out : Outcome,
          out.world.trace = w.trace ++ [.generateContent .model
            (chatRequest (req.message.getD "") none)] →
          Call.generateContent handle request ∈ newCalls w out.world →
          handle = .model ∧ request = chatRequest (req.message.getD "") none := by
        intro out ht hm
        rw [newCalls_append w out.world _ ht] at hm
        simp only [List.mem_singleton, Call.generateContent.injEq] at hm
        exact hm
      have hres : handle = .model ∧ request = chatRequest (req.message.getD "") none := by
        cases hg : env.generateContent .model (chatRequest (req.message.getD "") none) with
        | ok text => rw [hg] at hmem; exact hcalls _ rfl hmem
        | error e => rw [hg] at hmem; exact hcalls _ rfl hmem
      exact ⟨hres.1, none, hres.2, fun _ => rfl, fun f hf => by cases hf⟩
    | some f =>
      rw [hfile] at hmem
      by_cases ha : f.mimetype ∈ allowedTypes
      · by_cases hs : f.content.length ≤ fileSizeLimit
        · rw [upload_accept tmpName f w ha hs] at hmem
          simp only [processIfPresent_some] at hmem
          by_cases hi : startsWith f.mimetype "image/" = true
          · have hp := processUploadedFile_image env
              { path := "uploads/" ++ tmpName, mimetype := f.mimetype, size := f.content.length }
              (w.stored tmpName f.content) f.content hi (lookup_stored w tmpName f.content)
            rw [hp] at hmem
            simp only at hmem
            have hres : handle = .model ∧ request = chatRequest (req.message.getD "")
                (some (.image (env.base64 f.content) f.mimetype)) := by
              cases hg : env.generateContent .model (chatRequest (req.message.getD "")
                  (some (.image (env.base64 f.content) f.mimetype))) with
              | ok text =>
                rw [hg] at hmem
                refine mem_calls_after_processing w _
                  { path := "uploads/" ++ tmpName, mimetype := f.mimetype,
                    size := f.content.length } _ handle request ?_ hmem
                simp [World.logged, World.stored]
              | error e =>
                rw [hg] at hmem
                refine mem_calls_after_processing w _
                  { path := "uploads/" ++ tmpName, mimetype := f.mimetype,
                    size := f.content.length } _ handle request ?_ hmem
                simp [World.logged, World.stored]
            refine ⟨hres.1, _, hres.2, (fun h => by cases h), fun f' hf' => ?_⟩
            cases hf'
            exact ⟨_, rfl, (by rw [hp]), (fun _ => rfl), (fun hni => by rw [hi] at hni; cases hni)⟩
          · have hi' : startsWith f.mimetype "image/" = false := by simpa using hi
            have hp := processUploadedFile_text env
              { path := "uploads/" ++ tmpName, mimetype := f.mimetype, size := f.content.length }
              (w.stored tmpName f.content) f.content hi' (lookup_stored w tmpName f.content)
            dsimp only at hp
            rw [hp] at hmem
            cases hx : extractedText env f.mimetype f.content with
            | error e =>
              simp only [hx] at hmem
              rw [newCalls_append w _
                [.processUploadedFile { path := "uploads/" ++ tmpName, mimetype := f.mimetype,
                                        size := f.content.length }]
                (by simp [World.logged, World.stored])] at hmem
              simp at hmem
            | ok text =>
              simp only [hx] at hmem
              have hres : handle = .model ∧ request = chatRequest (req.message.getD "")
                  (some (.text text)) := by
                cases hg : env.generateContent .model (chatRequest (req.message.getD "")
                    (some (.text text))) with
                | ok reply =>
                  rw [hg] at hmem
                  refine mem_calls_after_processing w _
                    { path := "uploads/" ++ tmpName, mimetype := f.mimetype,
                      size := f.content.length } _ handle request ?_ hmem
                  simp [World.logged, World.stored]
                | error e =>
                  rw [hg] at hmem
                  refine mem_calls_after_processing w _
                    { path := "uploads/" ++ tmpName, mimetype := f.mimetype,
                      size := f.content.length } _ handle request ?_ hmem
                  simp [World.logged, World.stored]
              refine ⟨hres.1, _, hres.2, (fun h => by cases h), fun f' hf' => ?_⟩
              cases hf'
              refine ⟨_, rfl, ?_, (fun hy => by rw [hi'] at hy; cases hy), fun _ => ⟨text, hx, rfl⟩⟩
              rw [hp]
              simp only [hx]
        · rw [upload_too_large tmpName f w ha (by omega)] at hmem
          simp [newCalls] at hmem
      · rw [upload_reject tmpName f w ha] at hmem
        simp [newCalls] at hmem
  · intro hfile
    rw [chat_run, hfile, upload_none]
    simp only [processIfPresent_none]
    cases env.generateContent .model (chatRequest (req.message.getD "") none) <;>
      exact newCalls_append w _ _ rfl

/-! ## The handlers of variant 2 -/

/-- C7: `/ask` answers a request without a `question` field with 400 and
leaves the world as it was, so the trace gains no call: neither
`prepareAllData` nor `analyzeImage` nor a model has been called. -/
theorem ask_without_question (env : Env) (w : World) :
    ask env { question := none } w =
      { response := { status := 400, body := .error "กรุณาระบุคำถาม" none }, world := w } ∧
    newCalls w (ask env { question := none } w).world = [] := by
  have h : ask env { question := none } w =
      { response := { status := 400, body := .error "กรุณาระบุคำถาม" none }, world := w } := rfl
  refine ⟨h, ?_⟩
  rw [h]
  simp [newCalls]

/-- C8: for a question that is not empty, with a vision model and a text model
that answer, `/ask` responds 200 and `sources` is the keys of `imageData`, then
the keys of `documentData`, then `website`; the keys are those of the trained
images and documents whose file is present, in the order of the tables, and a
key whose file is absent does not occur.  The web site does not enter: the
statement holds for every result of the fetch. -/
theorem ask_sources (env : Env) (question : String) (w : World) (hq : question ≠ "")
    (hvision : ∀ request, ∃ text, env.generateContent .visionModel request = .ok text)
    (htext : ∀ request, ∃ text, env.generateContent .textModel request = .ok text) :
    ∃ allData w' answer, prepareAllData env w = (.ok allData, w') ∧
      allData.websiteData = scrapedText env trainedWebsite ∧
      (ask env { question := some question } w).response =
        { status := 200,
          body := .ask question answer
            (objectKeys allData.imageData ++ (objectKeys allData.documentData ++ ["website"])) } ∧
      objectKeys allData.imageData = presentImageKeys env w.fs ∧
      objectKeys allData.documentData = presentDocumentKeys env w.fs ∧
      (∀ entry ∈ trainedImages env,
        (entry.1 ∈ objectKeys allData.imageData ++ (objectKeys allData.documentData ++ ["website"])
          ↔ fileExists w.fs entry.2.path = true)) ∧
      (∀ entry ∈ trainedDocuments env,
        (entry.1 ∈ objectKeys allData.imageData ++ (objectKeys allData.documentData ++ ["website"])
          ↔ fileExists w.fs entry.2.path = true)) := by
  obtain ⟨allData, w', hrun, _, hik, hdk, hweb⟩ := prepareAllData_ok env hvision w
  obtain ⟨answer, hanswer⟩ := htext (askRequest env question allData)
  refine ⟨allData, w', answer, hrun, hweb, ?_, hik, hdk, ?_, ?_⟩
  · rw [ask_run env question w hq, hrun]
    simp only [hanswer]
    rfl
  · intro entry hentry
    rw [hik, hdk]
    simp only [trainedImages, List.mem_cons, List.mem_singleton, List.not_mem_nil, or_false]
      at hentry
    rcases hentry with rfl | rfl <;>
      simp only [presentImageKeys, presentDocumentKeys, trainedImages, trainedDocuments,
        List.filter_cons, List.filter_nil] <;>
      split_ifs <;> simp_all
  · intro entry hentry
    rw [hik, hdk]
    simp only [trainedDocuments, List.mem_cons, List.mem_singleton, List.not_mem_nil, or_false]
      at hentry
    rcases hentry with rfl | rfl <;>
      simp only [presentImageKeys, presentDocumentKeys, trainedImages, trainedDocuments,
        List.filter_cons, List.filter_nil] <;>
      split_ifs <;> simp_all

/-- Witness of C8: the sample world, where the web site cannot be reached and
only the contact image and the admission document are present. -/
theorem ask_sources_witness :
    scrapedText sampleEnv trainedWebsite = none ∧
    ∃ answer, (ask sampleEnv { question := some "ค่าเทอมเท่าไหร่" } sampleWorld).response =
      { status := 200,
        body := .ask "ค่าเทอมเท่าไหร่" answer ["contact", "admission", "website"] } := by
  obtain ⟨allData, w', answer, _, _, hresponse, himages, hdocuments, _, _⟩ :=
    ask_sources sampleEnv "ค่าเทอมเท่าไหร่" sampleWorld (by decide)
      (fun _ => ⟨"คำตอบ", rfl⟩) (fun _ => ⟨"คำตอบ", rfl⟩)
  refine ⟨rfl, answer, ?_⟩
  rw [hresponse, himages, hdocuments]
  rfl

/-! ## Failures -/

/-- C6 (counterexample): a file declared as PDF that the parser rejects is
answered by `/ask-upload` with 200 and a `null` content, not with 500. -/
theorem ask_upload_broken_pdf_answers_200 :
    sampleEnv.pdf brokenPdfBytes = .error "Invalid PDF structure" ∧
    (askUpload sampleEnv "f3a9" brokenPdfRequest emptyWorld).response =
      { status := 200, body := .askUpload (some "สรุปเอกสารนี้") none } := by
  constructor <;> rfl

/-- C6 (amended): in `/chat` a failure of the text extraction, or of the model
on the request sent, with the error `e` is answered with 500, the generic
message and `e` as details.  So is in `/ask` the first failure of an image
analysis (whichever trained image it is, the images before it having been
analysed) and a failure of the text model on the request sent, and in
`/ask-upload` a failure of the image analysis.  A failure of the PDF parser
inside `readPDF` is caught: `/ask-upload` answers 200 with the content `null`;
in `/ask`, when the images that are present are analysed, `prepareAllData`
returns, `documentData` holds for each present document what `readPDF`
returned, `null` for a document the parser rejects, and an answer of the text
model is passed on with 200. -/
theorem failures_answered_with_500 :
    (∀ (env : Env) (tmpName : String) (message : Option String) (f : IncomingFile) (w : World)
        (e : String),
      f.mimetype ∈ allowedTypes → f.content.length ≤ fileSizeLimit →
      startsWith f.mimetype "image/" = false →
      extractedText env f.mimetype f.content = .error e →
      (chat env tmpName { message := message, file := some f } w).response =
        { status := 500, body := .error "ข้อผิดพลาดในการประมวลผล" (some e) }) ∧
    (∀ (env : Env) (tmpName : String) (req : ChatRequest) (w : World) (e : String)
        (fileContent : Option FileContent),
      ((req.file = none ∧ fileContent = none) ∨
        ∃ f, req.file = some f ∧ f.mimetype ∈ allowedTypes ∧
          f.content.length ≤ fileSizeLimit ∧
          ((startsWith f.mimetype "image/" = true ∧
              fileContent = some (.image (env.base64 f.content) f.mimetype)) ∨
            (startsWith f.mimetype "image/" = false ∧
              ∃ text, extractedText env f.mimetype f.content = .ok text ∧
                fileContent = some (.text text)))) →
      env.generateContent .model (chatRequest (req.message.getD "") fileContent) = .error e →
      (chat env tmpName req w).response =
        { status := 500, body := .error "ข้อผิดพลาดในการประมวลผล" (some e) }) ∧
    (∀ (env : Env) (question : String) (w : World) (e : String)
        (pre : List (String × TrainedImage)) (key : String) (img : TrainedImage)
        (post : List (String × TrainedImage)) (bytes : Bytes),
      question ≠ "" →
      trainedImages env = pre ++ (key, img) :: post →
      (∀ entry ∈ pre, ImageAnalysed env w.fs entry.2) →
      w.fs.lookup img.path = some bytes →
      env.generateContent .visionModel (visionRequest env bytes img.mimeType "") = .error e →
      (ask env { question := some question } w).response =
        { status := 500, body := .error "ข้อผิดพลาดในการประมวลผล" (some e) }) ∧
    (∀ (env : Env) (question : String) (w w' : World) (e : String) (allData : AllData),
      question ≠ "" →
      prepareAllData env w = (.ok allData, w') →
      env.generateContent .textModel (askRequest env question allData) = .error e →
      (ask env { question := some question } w).response =
        { status := 500, body := .error "ข้อผิดพลาดในการประมวลผล" (some e) }) ∧
    (∀ (env : Env) (tmpName : String) (question : Option String) (f : IncomingFile) (w : World)
        (e : String),
      f.mimetype ∈ allowedTypes → f.content.length ≤ fileSizeLimit →
      startsWith f.mimetype "image/" = true →
      env.generateContent .visionModel
        (visionRequest env f.content f.mimetype (question.getD "")) = .error e →
      (askUpload env tmpName { question := question, file := some f } w).response =
        { status := 500, body := .error "ข้อผิดพลาดในการประมวลผลไฟล์" (some e) }) ∧
    (∀ (env : Env) (tmpName : String) (question : Option String) (f : IncomingFile) (w : World),
      f.mimetype = "application/pdf" → f.content.length ≤ fileSizeLimit →
      (askUpload env tmpName { question := question, file := some f } w).response =
        { status := 200,
          body := .askUpload question
            (match env.pdf f.content with
             | .ok text => some text
             | .error _ => none) }) ∧
    (∀ (env : Env) (question : String) (w : World), question ≠ "" →
      (∀ entry ∈ trainedImages env, ImageAnalysed env w.fs entry.2) →
      ∃ allData w', prepareAllData env w = (.ok allData, w') ∧
        allData.documentData = expectedDocumentData env w.fs ∧
        (∀ entry ∈ trainedDocuments env, ∀ (bytes : Bytes) (e : String),
          w.fs.lookup entry.2.path = some bytes → env.pdf bytes = .error e →
          (entry.1, ({ type := entry.2.type, content := none } : DocumentDatum)) ∈
            allData.documentData) ∧
        (∀ answer, env.generateContent .textModel (askRequest env question allData) = .ok answer →
          (ask env { question := some question } w).response =
            { status := 200, body := .ask question answer (askSources allData) })) := by
  refine ⟨?_, ?_, ?_, ?_, ?_, ?_, ?_⟩
  · intro env tmpName message f w e ha hs hi hx
    rw [chat_run]
    simp only [upload_accept tmpName f w ha hs, processIfPresent_some]
    rw [processUploadedFile_text env _ _ f.content hi (lookup_stored w tmpName f.content)]
    simp only [hx]
    rfl
  · intro env tmpName req w e fileContent hfile hmodel
    rw [chat_run]
    rcases hfile with ⟨hnone, rfl⟩ | ⟨f, hf, ha, hs, ⟨himage, rfl⟩ | ⟨hi, text, hx, rfl⟩⟩
    · rw [hnone, upload_none]
      simp only [processIfPresent_none, hmodel]
      rfl
    · rw [hf]
      simp only [upload_accept tmpName f w ha hs, processIfPresent_some]
      rw [processUploadedFile_image env _ _ f.content himage (lookup_stored w tmpName f.content)]
      simp only [hmodel]
      rfl
    · rw [hf]
      simp only [upload_accept tmpName f w ha hs, processIfPresent_some]
      rw [processUploadedFile_text env _ _ f.content hi (lookup_stored w tmpName f.content)]
      simp only [hx, hmodel]
      rfl
  · intro env question w e pre key img post bytes hq hsplit hpre hl hfail
    obtain ⟨w1, h1⟩ := collectImages_first_error env e key img post pre []
      (w.logged .prepareAllData) bytes hpre hl hfail
    rw [← hsplit] at h1
    rw [ask_run env question w hq, prepareAllData_error env w w1 e h1]
    rfl
  · intro env question w w' e allData hq hrun htext
    rw [ask_run env question w hq, hrun]
    simp only [htext]
    rfl
  · intro env tmpName question f w e ha hs hi hvision
    unfold askUpload
    simp only [upload_accept tmpName f w ha hs, respond]
    rw [askUploadTry_run env _ _ _ f.content (lookup_stored w tmpName f.content)]
    simp only [hi, if_true, hvision]
  · intro env tmpName question f w hp hs
    have ha : f.mimetype ∈ allowedTypes := by rw [hp]; decide
    have hi : startsWith "application/pdf" "image/" = false := by decide
    unfold askUpload
    simp only [upload_accept tmpName f w ha hs, respond]
    rw [askUploadTry_run env _ _ _ f.content (lookup_stored w tmpName f.content)]
    simp only [hi, hp, if_true, if_false, Bool.false_eq_true, pdfText, lookup_stored]
  · intro env question w hq hall
    obtain ⟨allData, w', hrun⟩ := prepareAllData_analysed env w hall
    obtain ⟨hdocs, _⟩ := prepareAllData_documents env w w' allData hrun
    refine ⟨allData, w', hrun, hdocs, ?_, ?_⟩
    · intro entry hentry bytes e hl hp
      rw [hdocs]
      unfold expectedDocumentData
      refine List.mem_map.mpr ⟨entry, ?_, ?_⟩
      · exact List.mem_filter.mpr ⟨hentry, fileExists_of_lookup w.fs entry.2.path bytes hl⟩
      · simp only [pdfText, hl, hp]
    · intro answer hanswer
      rw [ask_run env question w hq, hrun]
      simp only [hanswer]

/-- Witness of C6: with models that are out of quota, the question about the
tuition fee is answered with 500 and the message of the model error; and with
both trained images present and a vision model that answers for the first and
is unavailable for the second, `/ask` is answered with 500 and the message of
the second analysis. -/
theorem failures_answered_with_500_witness :
    (chat quotaEnv "f3a9" tuitionRequest emptyWorld).response =
      { status := 500, body := .error "ข้อผิดพลาดในการประมวลผล" (some "429 Too Many Requests") } ∧
    (ask jpegFailingEnv { question := some "ติดต่อคณะได้ทางไหน" } imagesWorld).response =
      { status := 500, body := .error "ข้อผิดพลาดในการประมวลผล" (some "503 Service Unavailable") } :=
  ⟨failures_answered_with_500.2.1 quotaEnv "f3a9" tuitionRequest emptyWorld
      "429 Too Many Requests" none (Or.inl ⟨rfl, rfl⟩) rfl,
    failures_answered_with_500.2.2.1 jpegFailingEnv "ติดต่อคณะได้ทางไหน" imagesWorld
      "503 Service Unavailable"
      [ ("tuition",
          { path := dataPath jpegFailingEnv "ค่าธรรมเนียมการศึกษาป.ตรี-650x900.png",
            mimeType := "image/png",
            description := "ตารางค่าธรรมเนียมการศึกษาคณะวิศวกรรมศาสตร์ มข." }) ]
      "contact"
      { path := dataPath jpegFailingEnv "ช่องทางการติดต่อสำหรับนักศึกษาปตรี.jpg",
        mimeType := "image/jpeg",
        description := "ช่องทางการติดต่อคณะวิศวกรรมศาสตร์ มข." }
      [] [255, 216, 255, 224] (by decide) rfl
      (by
        intro entry hentry bytes _
        rw [List.mem_singleton] at hentry
        subst hentry
        exact ⟨"คำตอบ", rfl⟩)
      rfl rfl⟩

end CIProject
